import Mathlib

/-!
# Verification of the alert_framework ingestion core

Shallow embedding of the watcher/ingestion pipeline of pkbatx/alert_framework:
`worker/ingest.py`, `core/store.py`, `caad_skillkit/ai/jsonio.py`,
`caad_skillkit/ai/rollups.py`, `caad_skillkit/ai/transcribe.py`,
`caad_skillkit/ai/schemas.py`, `caad_skillkit/config.py`.

Python strings are modelled as `List Char` / `String`, bytes as `List Nat`,
dicts produced by `json.loads` as a `Json` inductive, machine-level 32-bit
arithmetic (SHA-256) as `Nat` with explicit `% 2^32`.
-/

set_option autoImplicit false
set_option maxRecDepth 100000

namespace AlertFramework

/-! ## Python-style character and string helpers -/

/-- The character `{` (written via its code point to keep it out of source literals). -/
def lbrace : Char := Char.ofNat 123

/-- The character `}`. -/
def rbrace : Char := Char.ofNat 125

/-- The backquote character used by Markdown code fences. -/
def backquote : Char := Char.ofNat 96

/-- The double-quote character. -/
def dquote : Char := Char.ofNat 34

/-- Python `str.strip` whitespace set (ASCII part: space, tab, LF, CR, VT, FF). -/
def pyIsSpace (c : Char) : Bool :=
  [' ', '\t', '\n', '\r', Char.ofNat 11, Char.ofNat 12].contains c

/-- Python `str.strip()`: drop leading and trailing whitespace. -/
def pyStripList (l : List Char) : List Char :=
  ((l.dropWhile pyIsSpace).reverse.dropWhile pyIsSpace).reverse

/-- Python `str.lower()` (ASCII). -/
def pyLower (s : String) : String := String.mk (s.data.map Char.toLower)

/-- Python slice `s[:n]` on a `str` (by code point, like CPython). -/
def pySlice (n : Nat) (s : String) : String := String.mk (s.data.take n)

/-! ## JSON values and `json.loads` / `json.dumps`

`json` is the Python standard library; we model the subset of JSON used by
this system: objects, arrays, strings (standard single-character escapes;
`\uXXXX` escapes and float/exponent literals are outside the model — no
repository input or claim input uses them).  Python dict semantics for a
duplicate key (last occurrence wins) are mirrored by `jLookup` returning the
last binding. -/

inductive Json where
  | jnull : Json
  | jbool : Bool → Json
  | jnum : Int → Json
  | jstr : String → Json
  | jarr : List Json → Json
  | jobj : List (String × Json) → Json
deriving Repr

/-- Last-binding lookup, matching Python dict construction order semantics. -/
def jLookup (kvs : List (String × Json)) (k : String) : Option Json :=
  ((kvs.filter (fun kv => kv.1 == k)).getLast?).map Prod.snd

/-- Python `d.get(k, default)` on an object; `none` when not an object. -/
def jGet (j : Json) (k : String) : Option Json :=
  match j with
  | .jobj kvs => jLookup kvs k
  | _ => none

/-- JSON whitespace accepted by `json.loads` (space, tab, LF, CR). -/
def jsonSkipWs (l : List Char) : List Char :=
  l.dropWhile (fun c => [' ', '\t', '\n', '\r'].contains c)

/-- Parse the body of a JSON string after the opening quote; returns the
decoded characters and the remainder after the closing quote. -/
def parseStrChars : List Char → Option (List Char × List Char)
  | [] => none
  | c :: rest =>
    if c = dquote then some ([], rest)
    else if c = '\\' then
      match rest with
      | [] => none
      | e :: rest2 =>
        let esc : Option Char :=
          if e = dquote then some dquote
          else if e = '\\' then some '\\'
          else if e = '/' then some '/'
          else if e = 'b' then some (Char.ofNat 8)
          else if e = 'f' then some (Char.ofNat 12)
          else if e = 'n' then some '\n'
          else if e = 'r' then some '\r'
          else if e = 't' then some '\t'
          else none
        match esc with
        | some ch => (parseStrChars rest2).map (fun p => (ch :: p.1, p.2))
        | none => none
    else if c.toNat < 32 then none
    else (parseStrChars rest).map (fun p => (c :: p.1, p.2))

/-- Parse a JSON integer literal (no leading zeros, optional minus). -/
def parseIntToken (l : List Char) : Option (Int × List Char) :=
  let core : List Char → Option (Nat × List Char) := fun l2 =>
    let digits := l2.takeWhile Char.isDigit
    let rest := l2.dropWhile Char.isDigit
    if digits.isEmpty then none
    else if digits.length > 1 ∧ digits.headI = '0' then none
    else
      match rest with
      | r :: _ => if r = '.' ∨ r = 'e' ∨ r = 'E' then none
                  else some (digits.foldl (fun a c => a * 10 + (c.toNat - 48)) 0, rest)
      | [] => some (digits.foldl (fun a c => a * 10 + (c.toNat - 48)) 0, rest)
  match l with
  | '-' :: l2 => (core l2).map (fun p => (-(p.1 : Int), p.2))
  | _ => (core l).map (fun p => ((p.1 : Int), p.2))

mutual

/-- Fueled recursive-descent JSON value parser. -/
def parseJsonValue : Nat → List Char → Option (Json × List Char)
  | 0, _ => none
  | _ + 1, [] => none
  | n + 1, c :: rest =>
    if c = dquote then
      (parseStrChars rest).map (fun p => (Json.jstr (String.mk p.1), p.2))
    else if c = lbrace then
      let r1 := jsonSkipWs rest
      match r1 with
      | [] => none
      | d :: r2 =>
        if d = rbrace then some (Json.jobj [], r2)
        else (parseJsonMembers n r1).map (fun p => (Json.jobj p.1, p.2))
    else if c = '[' then
      let r1 := jsonSkipWs rest
      match r1 with
      | [] => none
      | d :: r2 =>
        if d = ']' then some (Json.jarr [], r2)
        else (parseJsonItems n r1).map (fun p => (Json.jarr p.1, p.2))
    else if ['t', 'r', 'u', 'e'].isPrefixOf (c :: rest) then
      some (Json.jbool true, (c :: rest).drop 4)
    else if ['f', 'a', 'l', 's', 'e'].isPrefixOf (c :: rest) then
      some (Json.jbool false, (c :: rest).drop 5)
    else if ['n', 'u', 'l', 'l'].isPrefixOf (c :: rest) then
      some (Json.jnull, (c :: rest).drop 4)
    else
      (parseIntToken (c :: rest)).map (fun p => (Json.jnum p.1, p.2))

/-- Object members, positioned at the first key; consumes the closing brace. -/
def parseJsonMembers : Nat → List Char → Option (List (String × Json) × List Char)
  | 0, _ => none
  | _ + 1, [] => none
  | n + 1, c :: rest =>
    if c = dquote then
      match parseStrChars rest with
      | none => none
      | some (k, r1) =>
        match jsonSkipWs r1 with
        | [] => none
        | col :: r3 =>
          if col = ':' then
            match parseJsonValue n (jsonSkipWs r3) with
            | none => none
            | some (v, r4) =>
              match jsonSkipWs r4 with
              | [] => none
              | sep :: r6 =>
                if sep = ',' then
                  (parseJsonMembers n (jsonSkipWs r6)).map
                    (fun p => ((String.mk k, v) :: p.1, p.2))
                else if sep = rbrace then some ([(String.mk k, v)], r6)
                else none
          else none
    else none

/-- Array items, positioned at the first item; consumes the closing bracket. -/
def parseJsonItems : Nat → List Char → Option (List Json × List Char)
  | 0, _ => none
  | n + 1, l =>
    match parseJsonValue n l with
    | none => none
    | some (v, r1) =>
      match jsonSkipWs r1 with
      | [] => none
      | sep :: r2 =>
        if sep = ',' then
          (parseJsonItems n (jsonSkipWs r2)).map (fun p => (v :: p.1, p.2))
        else if sep = ']' then some ([v], r2)
        else none

end

/-- Model of `json.loads` on a character list: exactly one JSON value with
only whitespace around it. -/
def jsonLoadsList (l : List Char) : Option Json :=
  let s := jsonSkipWs l
  match parseJsonValue (s.length + 1) s with
  | some (j, rest) => if (jsonSkipWs rest).isEmpty then some j else none
  | none => none

/-- Model of `json.loads` on a `String`. -/
def jsonLoads (s : String) : Option Json := jsonLoadsList s.data

/-- Escape one character for a JSON string literal, as `json.dumps` does with
`ensure_ascii=False`. -/
def jsonEscapeChar (c : Char) : List Char :=
  if c = dquote then ['\\', dquote]
  else if c = '\\' then ['\\', '\\']
  else if c = '\n' then ['\\', 'n']
  else if c = '\r' then ['\\', 'r']
  else if c = '\t' then ['\\', 't']
  else [c]

mutual

/-- Model of `json.dumps(..., ensure_ascii=False)` (default separators). -/
def jsonRenderV : Json → List Char
  | .jnull => "null".data
  | .jbool true => "true".data
  | .jbool false => "false".data
  | .jnum i => (toString i).data
  | .jstr s => dquote :: (s.data.flatMap jsonEscapeChar) ++ [dquote]
  | .jarr xs => '[' :: jsonRenderItems xs ++ [']']
  | .jobj kvs => lbrace :: jsonRenderMembers kvs ++ [rbrace]

def jsonRenderItems : List Json → List Char
  | [] => []
  | [x] => jsonRenderV x
  | x :: y :: rest => jsonRenderV x ++ [',', ' '] ++ jsonRenderItems (y :: rest)

def jsonRenderMembers : List (String × Json) → List Char
  | [] => []
  | [(k, v)] => dquote :: (k.data.flatMap jsonEscapeChar) ++ [dquote, ':', ' '] ++ jsonRenderV v
  | (k, v) :: m :: rest =>
      dquote :: (k.data.flatMap jsonEscapeChar) ++ [dquote, ':', ' '] ++ jsonRenderV v
        ++ [',', ' '] ++ jsonRenderMembers (m :: rest)

end

/-- Model of `json.dumps` returning a `String`. -/
def jsonRender (j : Json) : String := String.mk (jsonRenderV j)

/-! ## `caad_skillkit/ai/jsonio.py` -/

/-- One pass of `CODE_FENCE_RE.sub("", text)`: the regex
`(three backquotes)(?:json)?|(three backquotes)` with `re.IGNORECASE` removes
every fence, greedily taking a following `json` (case-insensitive). -/
def strip_code_fences_fuel : Nat → List Char → List Char
  | 0, l => l
  | f + 1, c1 :: c2 :: c3 :: j :: s :: o :: n :: rest =>
    if c1 = backquote ∧ c2 = backquote ∧ c3 = backquote then
      if j.toLower = 'j' ∧ s.toLower = 's' ∧ o.toLower = 'o' ∧ n.toLower = 'n' then
        strip_code_fences_fuel f rest
      else
        strip_code_fences_fuel f (j :: s :: o :: n :: rest)
    else c1 :: strip_code_fences_fuel f (c2 :: c3 :: j :: s :: o :: n :: rest)
  | f + 1, c1 :: c2 :: c3 :: rest =>
    if c1 = backquote ∧ c2 = backquote ∧ c3 = backquote then
      strip_code_fences_fuel f rest
    else c1 :: strip_code_fences_fuel f (c2 :: c3 :: rest)
  | f + 1, c :: rest => c :: strip_code_fences_fuel f rest
  | _ + 1, [] => []

/-- The regex scan; the fuel (one unit per consumed fence or character) is
the input length, which always suffices since every step consumes at least
one character. -/
def strip_code_fences_aux (l : List Char) : List Char :=
  strip_code_fences_fuel l.length l

/-- Model of `strip_code_fences`: remove code fences, then `str.strip()`. -/
def strip_code_fences (text : List Char) : List Char :=
  pyStripList (strip_code_fences_aux text)

/-- Suffix of the text starting at the first brace (`text.find` + slice). -/
def findFirstBrace : List Char → Option (List Char)
  | [] => none
  | c :: rest => if c = lbrace then some (c :: rest) else findFirstBrace rest

/-- Brace-depth scan of `extract_first_json_object`, accumulating the slice.
The scan starts at a brace, so `depth` reaches `0` exactly at the matching
close brace of the first top-level balanced region. -/
def extractBalanced (depth : Nat) (acc : List Char) : List Char → Option (List Char)
  | [] => none
  | c :: rest =>
    if c = lbrace then extractBalanced (depth + 1) (acc ++ [c]) rest
    else if c = rbrace then
      if depth = 1 then some (acc ++ [c])
      else extractBalanced (depth - 1) (acc ++ [c]) rest
    else extractBalanced depth (acc ++ [c]) rest

/-- Model of `extract_first_json_object`: the first balanced-brace slice, if any. -/
def extract_first_json_object (text : List Char) : Option (List Char) :=
  match findFirstBrace text with
  | none => none
  | some suffix => extractBalanced 0 [] suffix

/-- Python `s.replace(sub, "", 1)`: delete the first occurrence of `sub`. -/
def pyReplaceFirst (sub : List Char) : List Char → List Char
  | [] => []
  | c :: rest =>
    if sub.isPrefixOf (c :: rest) then (c :: rest).drop sub.length
    else c :: pyReplaceFirst sub rest

/-- Model of `parse_first_json_object`.  The error messages are those of the
`ValueError`s raised by the source; a `json.JSONDecodeError` (a `ValueError`
subclass) from `json.loads` is the third error case. -/
def parse_first_json_object (text : List Char) : Except String Json :=
  let cleaned := strip_code_fences text
  match extract_first_json_object cleaned with
  | none => .error "no JSON object found"
  | some objText =>
    if objText.isEmpty then .error "no JSON object found"
    else
      let remainder := pyReplaceFirst objText cleaned
      if remainder.contains lbrace ∨ remainder.contains rbrace then
        .error "multiple JSON objects found"
      else
        match jsonLoadsList objText with
        | some j => .ok j
        | none => .error "invalid JSON in extracted object"

/-! ## Python exception classes relevant to the pipeline -/

/-- The exception classes that can cross the stage boundary in
`worker/ingest.py`.  `valueError` covers `ValueError` and its subclass
`json.JSONDecodeError` (raised by `jsonio.parse_first_json_object`);
`osError` covers `OSError` and subclasses (filesystem failures and
`requests` transport exceptions, which derive from `IOError`). -/
inductive PyExc where
  | skillError (msg : String)
  | transcribeError (msg : String)
  | workerError (msg : String)
  | validationError (msg : String)
  | valueError (msg : String)
  | osError (msg : String)
  | storeError (msg : String)
deriving Repr, DecidableEq

/-- Python `str(err)` for the modelled exceptions. -/
def excMsg : PyExc → String
  | .skillError m => m
  | .transcribeError m => m
  | .workerError m => m
  | .validationError m => m
  | .valueError m => m
  | .osError m => m
  | .storeError m => m

/-- The exception classes caught by
`except (SkillError, TranscribeError, WorkerError, ValidationError)` at
`worker/ingest.py:157`. -/
def caughtByStageHandler : PyExc → Bool
  | .skillError _ => true
  | .transcribeError _ => true
  | .workerError _ => true
  | .validationError _ => true
  | .valueError _ => false
  | .osError _ => false
  | .storeError _ => false

/-! ## JSON Schema validation (`caad_skillkit/ai/schemas.py` defaults)

`jsonschema.validate` against the four `DEFAULT_*` schema documents of
`schemas.py` (the optional on-disk `contracts/*.schema.json` overrides are
not part of the provided sources; the defaults in `schemas.py` are the
in-source statement of the same contracts). -/

def isJStr : Json → Bool
  | .jstr _ => true
  | _ => false

def isJNum : Json → Bool
  | .jnum _ => true
  | _ => false

def isJNumOrNull : Json → Bool
  | .jnum _ => true
  | .jnull => true
  | _ => false

def isStrArray : Json → Bool
  | .jarr xs => xs.all isJStr
  | _ => false

/-- One transcript segment per `DEFAULT_TRANSCRIPTION_SCHEMA.segments.items`. -/
def isSegment : Json → Bool
  | .jobj kvs =>
    (["start", "end", "text"].all fun k => (jLookup kvs k).isSome) &&
    (kvs.all fun kv =>
      if kv.1 = "start" ∨ kv.1 = "end" then isJNum kv.2
      else if kv.1 = "text" then isJStr kv.2
      else false)
  | _ => false

/-- Model of `DEFAULT_TRANSCRIPTION_SCHEMA`. -/
def validateTranscriptionB : Json → Bool
  | .jobj kvs =>
    (["text", "language", "confidence", "duration_s", "segments"].all
      fun k => (jLookup kvs k).isSome) &&
    (kvs.all fun kv =>
      if kv.1 = "text" ∨ kv.1 = "language" then isJStr kv.2
      else if kv.1 = "confidence" ∨ kv.1 = "duration_s" then isJNumOrNull kv.2
      else if kv.1 = "segments" then
        match kv.2 with
        | .jarr xs => xs.all isSegment
        | _ => false
      else false)
  | _ => false

/-- Model of `DEFAULT_METADATA_SCHEMA`. -/
def validateMetadataB : Json → Bool
  | .jobj kvs =>
    (["call_type", "location", "notes", "tags"].all fun k => (jLookup kvs k).isSome) &&
    (kvs.all fun kv =>
      if kv.1 = "call_type" ∨ kv.1 = "location" ∨ kv.1 = "notes" then isJStr kv.2
      else if kv.1 = "tags" then isStrArray kv.2
      else false)
  | _ => false

/-- Model of `DEFAULT_ROLLUP_SCHEMA`. -/
def validateRollupB : Json → Bool
  | .jobj kvs =>
    (["title", "summary", "evidence", "confidence"].all fun k => (jLookup kvs k).isSome) &&
    (kvs.all fun kv =>
      if kv.1 = "title" ∨ kv.1 = "summary" then isJStr kv.2
      else if kv.1 = "evidence" then isStrArray kv.2
      else if kv.1 = "confidence" then
        match kv.2 with
        | .jstr s => ["low", "medium", "high"].contains s
        | _ => false
      else false)
  | _ => false

/-- Required fields of `DEFAULT_CALL_RECORD_SCHEMA`. -/
def callRecordRequired : List String :=
  ["id", "ts", "source", "original_filename", "stored_audio_path",
   "transcript_path", "metadata_path", "rollup_path", "status"]

/-- Model of `DEFAULT_CALL_RECORD_SCHEMA`: nine required string fields, an optional
string `error`, no additional properties. -/
def validateCallRecordB : Json → Bool
  | .jobj kvs =>
    (callRecordRequired.all fun k => (jLookup kvs k).isSome) &&
    (kvs.all fun kv => (callRecordRequired.contains kv.1 || kv.1 = "error") && isJStr kv.2)
  | _ => false

/-- Model of `worker/ingest.py` `_validate_payload`: `jsonschema.validate` wrapped into
a `WorkerError` on `ValidationError`. -/
def validate_payload (schemaType : String) (payload : Json) : Except PyExc Unit :=
  let ok :=
    if schemaType = "transcription" then validateTranscriptionB payload
    else if schemaType = "metadata" then validateMetadataB payload
    else if schemaType = "rollup" then validateRollupB payload
    else if schemaType = "call_record" then validateCallRecordB payload
    else false
  if ok then .ok () else .error (.workerError (schemaType ++ " validation failed"))

/-! ## SHA-256 (FIPS 180-4), the algorithm behind `hashlib.sha256`

Words are `Nat` reduced modulo `2 ^ 32`; messages are byte lists
(`Nat` values below 256). -/

/-- Reduce to a 32-bit word. -/
def w32 (n : Nat) : Nat := n % 4294967296

/-- Logical right shift on 32-bit words. -/
def shr32 (n x : Nat) : Nat := x / 2 ^ n

/-- Right rotation on 32-bit words. -/
def rotr32 (n x : Nat) : Nat := w32 (x / 2 ^ n + x % 2 ^ n * 2 ^ (32 - n))

/-- Bitwise complement on 32-bit words (valid for `x < 2 ^ 32`). -/
def not32 (x : Nat) : Nat := 4294967295 - w32 x

def xor3 (a b c : Nat) : Nat := Nat.xor (Nat.xor a b) c

def chN (x y z : Nat) : Nat := Nat.xor (Nat.land x y) (Nat.land (not32 x) z)

def majN (x y z : Nat) : Nat := xor3 (Nat.land x y) (Nat.land x z) (Nat.land y z)

def bigSigma0 (x : Nat) : Nat := xor3 (rotr32 2 x) (rotr32 13 x) (rotr32 22 x)

def bigSigma1 (x : Nat) : Nat := xor3 (rotr32 6 x) (rotr32 11 x) (rotr32 25 x)

def smallSigma0 (x : Nat) : Nat := xor3 (rotr32 7 x) (rotr32 18 x) (shr32 3 x)

def smallSigma1 (x : Nat) : Nat := xor3 (rotr32 17 x) (rotr32 19 x) (shr32 10 x)

/-- The SHA-256 round constants (FIPS 180-4 section 4.2.2), as decimal
naturals. -/
def K256 : List Nat :=
  [1116352408, 1899447441, 3049323471, 3921009573, 961987163, 1508970993,
   2453635748, 2870763221, 3624381080, 310598401, 607225278, 1426881987,
   1925078388, 2162078206, 2614888103, 3248222580, 3835390401, 4022224774,
   264347078, 604807628, 770255983, 1249150122, 1555081692, 1996064986,
   2554220882, 2821834349, 2952996808, 3210313671, 3336571891, 3584528711,
   113926993, 338241895, 666307205, 773529912, 1294757372, 1396182291,
   1695183700, 1986661051, 2177026350, 2456956037, 2730485921, 2820302411,
   3259730800, 3345764771, 3516065817, 3600352804, 4094571909, 275423344,
   430227734, 506948616, 659060556, 883997877, 958139571, 1322822218,
   1537002063, 1747873779, 1955562222, 2024104815, 2227730452, 2361852424,
   2428436474, 2756734187, 3204031479, 3329325298]

/-- The SHA-256 initial hash value (FIPS 180-4 section 5.3.3), as decimal
naturals. -/
def H256 : List Nat :=
  [1779033703, 3144134277, 1013904242, 2773480762, 1359893119, 2600822924,
   528734635, 1541459225]

/-- Big-endian byte expansion of a value into `n` bytes. -/
def beBytes : Nat → Nat → List Nat
  | 0, _ => []
  | n + 1, v => beBytes n (v / 256) ++ [v % 256]

/-- Big-endian word from bytes. -/
def beWord (bs : List Nat) : Nat := bs.foldl (fun a b => a * 256 + b) 0

/-- Split a list into consecutive chunks of size `m + 1`, structurally
recursive on a fuel bound. -/
def chunksOfF (m : Nat) : Nat → List Nat → List (List Nat)
  | _, [] => []
  | 0, l => [l]
  | f + 1, x :: xs => (x :: xs).take (m + 1) :: chunksOfF m f ((x :: xs).drop (m + 1))

/-- Split a list into consecutive chunks of size `m + 1` (every chunk
consumes at least one element, so fuel `length` always suffices). -/
def chunksOf (m : Nat) (l : List Nat) : List (List Nat) := chunksOfF m l.length l

/-- SHA-256 message padding: `0x80`, zeros to 56 mod 64, 64-bit bit length. -/
def sha256Pad (msg : List Nat) : List Nat :=
  let L := msg.length
  let padZeros := (64 + 56 - (L + 1) % 64) % 64
  msg ++ [128] ++ List.replicate padZeros 0 ++ beBytes 8 (8 * L)

/-- Expand the 16 block words to the 64-entry message schedule. -/
def extendWords (ws : List Nat) : List Nat :=
  (List.range 48).foldl
    (fun acc _ =>
      let i := acc.length
      acc ++ [w32 (smallSigma1 (acc.getD (i - 2) 0) + acc.getD (i - 7) 0 +
                   smallSigma0 (acc.getD (i - 15) 0) + acc.getD (i - 16) 0)])
    ws

/-- One SHA-256 round on the eight working variables. -/
def shaRound (st : List Nat) (kw : Nat × Nat) : List Nat :=
  match st with
  | [a, b, c, d, e, f, g, h] =>
    let t1 := w32 (h + bigSigma1 e + chN e f g + kw.1 + kw.2)
    let t2 := w32 (bigSigma0 a + majN a b c)
    [w32 (t1 + t2), a, b, c, w32 (d + t1), e, f, g]
  | _ => st

/-- Compress one 64-byte block into the hash state. -/
def sha256Block (hs : List Nat) (block : List Nat) : List Nat :=
  let ws := extendWords ((chunksOf 3 block).map beWord)
  let st := (K256.zip ws).foldl shaRound hs
  (hs.zip st).map (fun p => w32 (p.1 + p.2))

/-- SHA-256 digest (32 bytes) of a byte list. -/
def sha256Bytes (msg : List Nat) : List Nat :=
  ((chunksOf 63 (sha256Pad msg)).foldl sha256Block H256).flatMap (beBytes 4)

def hexDigit (n : Nat) : Char := "0123456789abcdef".data.getD n '0'

/-- Lowercase hex encoding of a byte list, as `hexdigest` produces. -/
def bytesToHex (bs : List Nat) : String :=
  String.mk (bs.flatMap fun b => [hexDigit (b / 16), hexDigit (b % 16)])

/-- SHA-256 lowercase hex digest of a byte list. -/
def sha256Hex (msg : List Nat) : String := bytesToHex (sha256Bytes msg)

/-! ## `hashlib` streaming interface

A `hashlib.sha256()` context is modelled at specification level by the bytes
fed to it so far: `update` appends, `hexdigest` hashes the concatenation,
which is exactly the observable contract of the incremental API. -/

def hashUpdate (ctx chunk : List Nat) : List Nat := ctx ++ chunk

def hashHexDigest (ctx : List Nat) : String := sha256Hex ctx

/-! ## Filesystem model

Files hold either raw bytes (audio), a complete JSON document, or arbitrary
text (used to model corrupt JSON records).  `dataLoads` models
`json.loads(path.read_text())`; on binary content `read_text`/`json.loads`
fails, modelled as `none`. -/

inductive FileData where
  | bytes (bs : List Nat)
  | jsonData (j : Json)
  | textData (s : String)
deriving Repr

/-- Bytes of a file as `open("rb").read()` would see them. -/
def dataBytes : FileData → List Nat
  | .bytes bs => bs
  | .jsonData j => (jsonRender j).data.map Char.toNat
  | .textData s => s.data.map Char.toNat

/-- Model of `json.loads(path.read_text())`, `none` on a `JSONDecodeError`. -/
def dataLoads : FileData → Option Json
  | .jsonData j => some j
  | .textData s => jsonLoads s
  | .bytes _ => none

structure FS where
  files : List (String × FileData)
  dirs : List String
deriving Repr

def fsRead (fs : FS) (p : String) : Option FileData :=
  (fs.files.find? fun kv => kv.1 == p).map Prod.snd

def fsExists (fs : FS) (p : String) : Bool := (fsRead fs p).isSome

def fsWrite (fs : FS) (p : String) (d : FileData) : FS :=
  ⟨(p, d) :: fs.files.filter fun kv => kv.1 != p, fs.dirs⟩

def fsRemove (fs : FS) (p : String) : FS :=
  ⟨fs.files.filter fun kv => kv.1 != p, fs.dirs⟩

/-- Model of `Path.mkdir(parents=True, exist_ok=True)`. -/
def mkdirp (fs : FS) (d : String) : FS :=
  if fs.dirs.contains d then fs else ⟨fs.files, d :: fs.dirs⟩

/-- Last component of a path (`Path.name`). -/
def baseName (p : String) : String :=
  String.mk ((p.data.reverse.takeWhile fun c => c ≠ '/').reverse)

/-- Directory of a path (`Path.parent`). -/
def parentDir (p : String) : String :=
  String.mk (((p.data.reverse.dropWhile fun c => c ≠ '/').drop 1).reverse)

/-! ## `core/store.py` constants and path layout -/

/-- Model of `REPO_ROOT` (absolute location is irrelevant; a fixed abstract root). -/
def REPO_ROOT : String := "/repo"

def RUNTIME_DIR : String := "/repo/runtime"

def CALLS_DIR : String := "/repo/runtime/calls"

def ensure_runtime_layout (fs : FS) : FS := mkdirp fs CALLS_DIR

/-- Model of `worker/ingest.py` `_relative_path`: relative to `REPO_ROOT` when the
path is under it, the unchanged path string otherwise (the `ValueError`
fallback). -/
def relative_path (p : String) : String :=
  if ("/repo/".data).isPrefixOf p.data then String.mk (p.data.drop 6) else p

structure CallPaths where
  audio : String
  transcript : String
  metadata : String
  rollup : String
  call_record : String
deriving Repr

/-- Model of `store.paths_for_call`. -/
def paths_for_call (call_id : String) : CallPaths :=
  let base := CALLS_DIR ++ "/" ++ call_id
  ⟨base ++ "/audio", base ++ "/transcript.json", base ++ "/metadata.json",
   base ++ "/rollup.json", base ++ "/call_record.json"⟩

/-- The 1 MiB read size of `call_id_from_audio` (as a `chunksOf` parameter,
whose chunk size is its argument plus one). -/
def CHUNK_M : Nat := 1048575

/-- Model of `store.call_id_from_audio`: stream the file content in 1 MiB chunks
through a SHA-256 context and return the hex digest; `StoreError` when the
file does not exist. -/
def call_id_from_audio (fs : FS) (path : String) : Except PyExc String :=
  match fsRead fs path with
  | none => .error (.storeError ("audio file not found: " ++ path))
  | some fd =>
    .ok (hashHexDigest (((chunksOf CHUNK_M (dataBytes fd))).foldl hashUpdate []))

/-! ## Environment: configuration, external services, injected failures

`vars` is the process environment after `load_env_file` (`config.py`);
`now` the timestamp `datetime.now(...)` formats; the three service fields
give the responses (or raised exceptions) of the transcription and
chat-completion backends; the `...Exc` fields inject filesystem failures
(`shutil` copy/move, artifact writes, record writes) by path. -/

structure Env where
  vars : String → Option String
  now : String
  localaiTranscribeRaw : String → Except PyExc Json
  openaiTranscribeRaw : String → Except PyExc Json
  chatContent : String → String → Except PyExc String
  copyExc : Option PyExc
  artifactWriteExc : String → Option PyExc
  recordWriteExc : String → Option PyExc

/-- The quote characters stripped by `normalize_env`. -/
def squote : Char := Char.ofNat 39

/-- Model of `config.normalize_env`. -/
def normalize_env (v : Option String) : Option String :=
  match v with
  | none => none
  | some s =>
    let t := pyStripList s.data
    match t with
    | [] => some ""
    | c :: _ =>
      if t.length ≥ 2 ∧ t.getLast? = some c ∧ (c = squote ∨ c = dquote) then
        some (String.mk (pyStripList ((t.drop 1).dropLast)))
      else some (String.mk t)

/-- Model of `config.get_env`: normalised environment value, falling back to the
default when unset or falsy (empty). -/
def get_env (env : Env) (key : String) (dflt : Option String) : Option String :=
  match normalize_env (env.vars key) with
  | none => dflt
  | some s => if s = "" then dflt else some s

/-! ## Store writes -/

/-- Net effect of `store._atomic_write_json` (`core/store.py:68`): create the
parent directory, then the payload appears complete at the final path (the
temp-sibling-and-rename mechanics are modelled operation by operation in the
`AtomicOps` section below).  A filesystem failure is injected per path. -/
def atomic_write_json_net (env : Env) (fs : FS) (path : String) (payload : Json) :
    Except PyExc FS :=
  match env.recordWriteExc path with
  | some e => .error e
  | none => .ok (fsWrite (mkdirp fs (parentDir path)) path (.jsonData payload))

/-- Modelled from the spec: `store.write_json_atomic`, called by
`worker/ingest.py` lines 135/139/143 for the transcript/metadata/rollup
artifacts, has no definition among the provided sources.  Spec section 4.1
(`writeArtifact`) specifies it: create parent directories as needed, write a
temporary sibling file and atomically rename it over the artifact path.  Its
net effect is modelled like `_atomic_write_json`; a filesystem failure
surfaces as an `OSError`, injected per path by the environment. -/
def write_json_atomic (env : Env) (fs : FS) (path : String) (payload : Json) :
    Except PyExc FS :=
  match env.artifactWriteExc path with
  | some e => .error e
  | none => .ok (fsWrite (mkdirp fs (parentDir path)) path (.jsonData payload))

/-- Model of `store.write_call_record`: validate against the call-record contract
(the on-disk `contracts/call_record.schema.json`, stated in-source as
`DEFAULT_CALL_RECORD_SCHEMA`), create the call directories and atomically
write `call_record.json` under the record's own `id`. -/
def write_call_record (env : Env) (fs : FS) (record : Json) : Except PyExc FS :=
  if ¬ validateCallRecordB record then
    .error (.storeError "call_record validation failed")
  else
    match jGet record "id" with
    | some (.jstr cid) =>
      let call_dir := CALLS_DIR ++ "/" ++ cid
      let fs1 := mkdirp fs (call_dir ++ "/audio")
      atomic_write_json_net env fs1 (call_dir ++ "/call_record.json") record
    | _ => .error (.storeError "call_record missing id")

/-! ## Backend stage functions (`transcribe.py`, `rollups.py`) -/

/-- A call to an external backend service. -/
inductive BCall where
  | transcribeCall (path : String)
  | chatCall (systemPrompt userText : String)
deriving Repr, DecidableEq

/-- Model of `transcribe.py`: assemble the transcription payload from the raw backend
response (`raw.get("text", "")` when the response is a dict) and validate it
against the transcription schema, raising `TranscribeError` on failure. -/
def mkTranscriptPayload (raw : Json) : Except PyExc Json :=
  let text : Json := match raw with
    | .jobj _ => (jGet raw "text").getD (.jstr "")
    | _ => .jstr ""
  let lang : Json := match raw with
    | .jobj _ => (jGet raw "language").getD (.jstr "")
    | _ => .jstr ""
  let payload := Json.jobj
    [("text", text), ("language", lang), ("confidence", .jnull),
     ("duration_s", .jnull), ("segments", .jarr [])]
  if validateTranscriptionB payload then .ok payload
  else .error (.transcribeError "transcription schema validation failed")

/-- Model of `transcribe.transcribe_audio`: backend dispatch on
`TRANSCRIBE_BACKEND` (settings default `openai`), existence check, raw
backend call, payload construction and validation.  The returned list
records the backend invocations made. -/
def transcribe_audio (env : Env) (fs : FS) (path : String) :
    List BCall × Except PyExc Json :=
  let backend := pyLower ((get_env env "TRANSCRIBE_BACKEND" none).getD "openai")
  if ¬ fsExists fs path then
    ([], .error (.transcribeError ("file not found: " ++ path)))
  else if backend = "localai" then
    match env.localaiTranscribeRaw path with
    | .error e => ([.transcribeCall path], .error e)
    | .ok raw => ([.transcribeCall path], mkTranscriptPayload raw)
  else if backend = "openai" then
    match get_env env "OPENAI_API_KEY" none with
    | none => ([], .error (.transcribeError "OPENAI_API_KEY missing"))
    | some _ =>
      match env.openaiTranscribeRaw path with
      | .error e => ([.transcribeCall path], .error e)
      | .ok raw => ([.transcribeCall path], mkTranscriptPayload raw)
  else ([], .error (.transcribeError ("unsupported TRANSCRIBE_BACKEND " ++ backend)))

/-- Model of `rollups._backend()`. -/
def ai_backend (env : Env) : String :=
  pyLower ((get_env env "AI_BACKEND" none).getD "localai")

/-- Model of `rollups._validate`: `jsonschema.validate` wrapped into `SkillError`. -/
def skill_validate (validator : Json → Bool) (payload : Json) : Except PyExc Json :=
  if validator payload then .ok payload else .error (.skillError "schema validation failed")

def metadataPrompt : String :=
  "Return a single JSON object with keys call_type, location, notes, tags. No extra keys."

def rollupPrompt : String :=
  "Return a single JSON object with keys title, summary, evidence, confidence. No extra keys."

def stubMetadata : Json :=
  .jobj [("call_type", .jstr "unknown"), ("location", .jstr "unknown"),
         ("notes", .jstr "stub output"), ("tags", .jarr [])]

def stubRollup : Json :=
  .jobj [("title", .jstr "stub rollup"), ("summary", .jstr "stub summary"),
         ("evidence", .jarr []), ("confidence", .jstr "low")]

/-- Shared chat-stage logic of `build_metadata`/`build_rollup` after backend
selection: invoke the chat completion, extract exactly one JSON object from
its content (`parse_first_json_object`, whose rejections are `ValueError`s,
passed through unwrapped), validate against the stage schema. -/
def chatStage (env : Env) (prompt text : String) (validator : Json → Bool) :
    List BCall × Except PyExc Json :=
  match env.chatContent prompt text with
  | .error e => ([.chatCall prompt text], .error e)
  | .ok content =>
    ([.chatCall prompt text],
      match parse_first_json_object content.data with
      | .error m => .error (.valueError m)
      | .ok payload => skill_validate validator payload)

/-- Model of `rollups.build_metadata`. -/
def build_metadata (env : Env) (text : String) : List BCall × Except PyExc Json :=
  let backend := ai_backend env
  if backend = "stub" then ([], skill_validate validateMetadataB stubMetadata)
  else if backend = "localai" then chatStage env metadataPrompt text validateMetadataB
  else if backend = "openai" then
    match get_env env "OPENAI_API_KEY" none with
    | none => ([], .error (.skillError "OPENAI_API_KEY missing"))
    | some _ => chatStage env metadataPrompt text validateMetadataB
  else ([], .error (.skillError ("unsupported AI_BACKEND " ++ backend)))

/-- Model of `rollups.build_rollup`. -/
def build_rollup (env : Env) (text : String) : List BCall × Except PyExc Json :=
  let backend := ai_backend env
  if backend = "stub" then ([], skill_validate validateRollupB stubRollup)
  else if backend = "localai" then chatStage env rollupPrompt text validateRollupB
  else if backend = "openai" then
    match get_env env "OPENAI_API_KEY" none with
    | none => ([], .error (.skillError "OPENAI_API_KEY missing"))
    | some _ => chatStage env rollupPrompt text validateRollupB
  else ([], .error (.skillError ("unsupported AI_BACKEND " ++ backend)))

/-! ## `worker/ingest.py` `process_file` -/

/-- Model of `worker/ingest.py` `_normalize_mode`. -/
def normalize_mode (v : Option String) : String :=
  match v with
  | none => "copy"
  | some s =>
    if s = "" then "copy"
    else
      let l := pyLower s
      if l = "copy" ∨ l = "move" then l else "copy"

/-- Model of `worker/ingest.py` `_call_record_template`; the `error` key is included
only when the message is truthy (non-`None`, non-empty). -/
def call_record_template (env : Env) (call_id calls_dir original_filename
    stored_audio_path transcript_path metadata_path rollup_path status : String)
    (error : Option String) : Json :=
  Json.jobj
    ([("id", .jstr call_id), ("ts", .jstr env.now), ("source", .jstr calls_dir),
      ("original_filename", .jstr original_filename),
      ("stored_audio_path", .jstr (relative_path stored_audio_path)),
      ("transcript_path", .jstr (relative_path transcript_path)),
      ("metadata_path", .jstr (relative_path metadata_path)),
      ("rollup_path", .jstr (relative_path rollup_path)),
      ("status", .jstr status)] ++
     match error with
     | some e => if e ≠ "" then [("error", .jstr e)] else []
     | none => [])

/-- Outcome of one `process_file` call: final filesystem, the call records
persisted by this call (path and payload), the backend invocations made, and
the returned record (`.ok`) or the uncaught Python exception (`.error`). -/
structure RunOut where
  fs : FS
  writes : List (String × Json)
  calls : List BCall
  result : Except PyExc Json
deriving Repr

/-- The stage sequence inside the `try` of `worker/ingest.py:132-143`:
transcribe, validate, persist; metadata, validate, persist; rollup,
validate, persist.  Returns the filesystem after any artifact writes, the
backend calls made, and `()` on success or the first raised exception. -/
def run_stages (env : Env) (fs : FS) (dest : String) (P : CallPaths) :
    FS × List BCall × Except PyExc Unit :=
  match transcribe_audio env fs dest with
  | (c1, .error e) => (fs, c1, .error e)
  | (c1, .ok transcript) =>
    match validate_payload "transcription" transcript with
    | .error e => (fs, c1, .error e)
    | .ok _ =>
      match write_json_atomic env fs P.transcript transcript with
      | .error e => (fs, c1, .error e)
      | .ok fs1 =>
        let text := match jGet transcript "text" with
          | some (.jstr s) => s
          | _ => ""
        match build_metadata env text with
        | (c2, .error e) => (fs1, c1 ++ c2, .error e)
        | (c2, .ok metadata) =>
          match validate_payload "metadata" metadata with
          | .error e => (fs1, c1 ++ c2, .error e)
          | .ok _ =>
            match write_json_atomic env fs1 P.metadata metadata with
            | .error e => (fs1, c1 ++ c2, .error e)
            | .ok fs2 =>
              match build_rollup env text with
              | (c3, .error e) => (fs2, c1 ++ c2 ++ c3, .error e)
              | (c3, .ok rollup) =>
                match validate_payload "rollup" rollup with
                | .error e => (fs2, c1 ++ c2 ++ c3, .error e)
                | .ok _ =>
                  match write_json_atomic env fs2 P.rollup rollup with
                  | .error e => (fs2, c1 ++ c2 ++ c3, .error e)
                  | .ok fs3 => (fs3, c1 ++ c2 ++ c3, .ok ())

/-- Build and persist a call record, mirroring
`_call_record_template` + `store.write_call_record` and the subsequent
`return record`; an exception from `write_call_record` itself (e.g. a
filesystem failure) is NOT caught anywhere in `process_file` and escapes. -/
def finishRecord (env : Env) (fs : FS) (calls : List BCall) (call_id calls_dir name
    dest : String) (P : CallPaths) (status : String) (error : Option String) : RunOut :=
  let rec0 := call_record_template env call_id calls_dir name dest
    P.transcript P.metadata P.rollup status error
  match write_call_record env fs rec0 with
  | .ok fs2 => ⟨fs2, [(P.call_record, rec0)], calls, .ok rec0⟩
  | .error e2 => ⟨fs, [], calls, .error e2⟩

/-- The stage `try`/`except` of `worker/ingest.py:132-171` around the stage
sequence: on success persist the `complete` record; on an exception of one
of the four caught classes persist an `error` record with the truncated
message; any other exception class escapes with nothing written. -/
def stagePhase (env : Env) (fs2 : FS) (call_id calls_dir name dest : String)
    (P : CallPaths) : RunOut :=
  match run_stages env fs2 dest P with
  | (fs3, calls, .ok _) =>
    finishRecord env fs3 calls call_id calls_dir name dest P "complete" none
  | (fs3, calls, .error e) =>
    if caughtByStageHandler e then
      finishRecord env fs3 calls call_id calls_dir name dest P "error"
        (some (pySlice 240 (excMsg e)))
    else ⟨fs3, [], calls, .error e⟩

/-- The body of `process_file` after the idempotence check
(`worker/ingest.py:103-171`): audio dir creation, copy/move with its
catch-all `except Exception` handler, then the stage phase. -/
def process_file_body (env : Env) (fs : FS) (path calls_dir : String)
    (copy_mode : Option String) (call_id : String) (P : CallPaths) : RunOut :=
  let fs1 := mkdirp fs P.audio
  let name := baseName path
  let dest := P.audio ++ "/" ++ name
  let mode := normalize_mode copy_mode
  match env.copyExc with
  | some e =>
    finishRecord env fs1 [] call_id calls_dir name dest P "error"
      (some (pySlice 240 (excMsg e)))
  | none =>
    match fsRead fs1 path with
    | none =>
      -- shutil raising FileNotFoundError, caught by `except Exception`
      finishRecord env fs1 [] call_id calls_dir name dest P "error"
        (some (pySlice 240 ("copy failed: file not found: " ++ path)))
    | some d =>
      let fs2 := if mode = "move" then fsWrite (fsRemove fs1 path) dest d
                 else fsWrite fs1 dest d
      stagePhase env fs2 call_id calls_dir name dest P

/-- Model of `worker/ingest.py` `process_file`: runtime layout, existence check
(`WorkerError` raised when missing), content hashing, idempotence
short-circuit on an existing parseable record (a `JSONDecodeError` is
swallowed and processing continues), then the body. -/
def process_file (env : Env) (fs0 : FS) (path calls_dir : String)
    (copy_mode : Option String) : RunOut :=
  let fs := ensure_runtime_layout fs0
  if ¬ fsExists fs path then
    ⟨fs, [], [], .error (.workerError ("file not found: " ++ path))⟩
  else
    match call_id_from_audio fs path with
    | .error e => ⟨fs, [], [], .error e⟩
    | .ok call_id =>
      let P := paths_for_call call_id
      match fsRead fs P.call_record with
      | some fd =>
        match dataLoads fd with
        | some j => ⟨fs, [], [], .ok j⟩
        | none => process_file_body env fs path calls_dir copy_mode call_id P
      | none => process_file_body env fs path calls_dir copy_mode call_id P

/-! ## `worker/ingest.py` `run_watcher`: per-file poll logic

The loop keeps, per watched path, a `deque(maxlen=stable_polls)` of
observed sizes, a `processed` entry `(status, size-at-processing)` and an
`eligible_emitted` flag (which only gates the advisory `detected` event).
All three are keyed by the path, and `process_file` never touches another
entry of the watched directory (copies go into the store; a move removes
only the file itself), so one file's poll evolution is independent of the
others and is modelled as a step function on that file's state. -/

structure WatchSt where
  history : List Nat
  procEntry : Option (String × Nat)
  eligible : Bool
deriving Repr, DecidableEq

/-- Model of `deque(maxlen=k).append`: append, dropping from the left beyond `k`. -/
def dequeAppend (k : Nat) (h : List Nat) (x : Nat) : List Nat :=
  let h2 := h ++ [x]
  h2.drop (h2.length - k)

/-- Model of `len(set(history)) == 1`: nonempty and all elements equal. -/
def pySetCard1 : List Nat → Bool
  | [] => false
  | x :: xs => xs.all fun y => y == x

/-- The poll logic after the `processed` check (`worker/ingest.py:216-227`):
append the size, skip while the window is not full of identical sizes,
otherwise submit to `process_file`; `outcome` is the status of the record
the submission returns. -/
def watchObserve (k : Nat) (st : WatchSt) (size : Nat) (outcome : String) :
    WatchSt × Bool :=
  let h := dequeAppend k st.history size
  if h.length < k ∨ ¬ pySetCard1 h then (⟨h, st.procEntry, st.eligible⟩, false)
  else (⟨h, some (outcome, size), true⟩, true)

/-- One poll for one file (`worker/ingest.py:209-227`): a processed entry is
skipped unless its status is `error` and its recorded size differs from the
current size, in which case it is evicted and the observation proceeds. -/
def watchStep (k : Nat) (st : WatchSt) (size : Nat) (outcome : String) :
    WatchSt × Bool :=
  match st.procEntry with
  | some pe =>
    if pe.1 = "error" ∧ pe.2 ≠ size then
      watchObserve k ⟨st.history, none, st.eligible⟩ size outcome
    else (st, false)
  | none => watchObserve k st size outcome

/-- Fold `watchStep` over a sequence of (size, outcome) observations,
counting submissions to `process_file`. -/
def runPolls (k : Nat) : WatchSt → List (Nat × String) → WatchSt × Nat
  | st, [] => (st, 0)
  | st, ob :: rest =>
    let p := watchStep k st ob.1 ob.2
    let q := runPolls k p.1 rest
    (q.1, (if p.2 then 1 else 0) + q.2)

/-- The initial state of a freshly seen file. -/
def watchStart : WatchSt := ⟨[], none, false⟩

/-! ## Operation-level model of `_atomic_write_json` (for atomic visibility)

`core/store.py:68-72` performs `mkdir(parents=True)`, `tmp.write_text(...)`,
`tmp.replace(path)`.  To reason about what a concurrent reader can observe,
each primitive becomes an `FSOp`; a text write exposes every prefix of its
content at the temp path while in progress, whereas directory creation and
`Path.replace` (POSIX `rename(2)`) are atomic. -/

inductive FSOp where
  | mkdirOp (dir : String)
  | writeTextOp (path : String) (content : List Char)
  | renameOp (src dst : String)
deriving Repr

def applyOp (fs : FS) : FSOp → FS
  | .mkdirOp d => mkdirp fs d
  | .writeTextOp p content => fsWrite fs p (.textData (String.mk content))
  | .renameOp src dst =>
    match fsRead fs src with
    | some d => fsWrite (fsRemove fs src) dst d
    | none => fs

/-- Every filesystem state observable while one op executes (a text write
exposes each prefix of the content, including the finished write). -/
def opStates (fs : FS) : FSOp → List FS
  | .writeTextOp p content =>
    (List.range (content.length + 1)).map fun i =>
      fsWrite fs p (.textData (String.mk (content.take i)))
  | op => [applyOp fs op]

/-- All states observable during a sequence of ops, the initial one included. -/
def execStates (fs : FS) : List FSOp → List FS
  | [] => [fs]
  | op :: rest => fs :: (opStates fs op ++ execStates (applyOp fs op) rest)

/-- Model of `path.with_suffix(path.suffix + ".tmp")`: for the single-extension
`.json` artifact and record paths this appends `.tmp`. -/
def tmpName (p : String) : String := p ++ ".tmp"

/-- The primitive operations of `_atomic_write_json path payload`. -/
def atomic_write_json_ops (path : String) (payload : Json) : List FSOp :=
  [.mkdirOp (parentDir path),
   .writeTextOp (tmpName path) (jsonRenderV payload),
   .renameOp (tmpName path) path]

/-! ## Concrete fixtures used by the counterexamples and witnesses -/

/-- A watched source file. -/
def inboxPath : String := "/inbox/a.mp3"

/-- Its audio content. -/
def audioBytes : List Nat := [1, 2, 3]

/-- An environment in which every stage succeeds: stub AI backend, localai
transcription returning a plain text payload, no injected failures. -/
def envStub : Env :=
  ⟨fun k => if k = "AI_BACKEND" then some "stub"
            else if k = "TRANSCRIBE_BACKEND" then some "localai" else none,
   "2026-01-01T00:00:00Z",
   fun _ => .ok (Json.jobj [("text", .jstr "hi"), ("language", .jstr "en")]),
   fun _ => .error (.transcribeError "unused"),
   fun _ _ => .error (.skillError "unused"),
   none, fun _ => none, fun _ => none⟩

/-- Like `envStub` but with the localai chat backend, whose completion
content contains two top-level JSON objects. -/
def envTwoObjects : Env :=
  ⟨fun k => if k = "AI_BACKEND" then some "localai"
            else if k = "TRANSCRIBE_BACKEND" then some "localai" else none,
   "2026-01-01T00:00:00Z",
   fun _ => .ok (Json.jobj [("text", .jstr "hi"), ("language", .jstr "en")]),
   fun _ => .error (.transcribeError "unused"),
   fun _ _ => .ok "\x7b\"a\": 1\x7d \x7b\"b\": 2\x7d",
   none, fun _ => none, fun _ => none⟩

/-- A watched directory holding only the audio file. -/
def fsInbox : FS := ⟨[(inboxPath, .bytes audioBytes)], []⟩

/-- A previously persisted record with `status = error` for the content of
`audioBytes`. -/
def priorErrorRecord : Json :=
  .jobj [("id", .jstr (sha256Hex audioBytes)), ("ts", .jstr "2025-12-31T00:00:00Z"),
         ("source", .jstr "/inbox"), ("original_filename", .jstr "a.mp3"),
         ("stored_audio_path", .jstr "x"), ("transcript_path", .jstr "x"),
         ("metadata_path", .jstr "x"), ("rollup_path", .jstr "x"),
         ("status", .jstr "error"), ("error", .jstr "backend down")]

/-- The watched directory plus that persisted error record. -/
def fsWithErrorRecord : FS :=
  ⟨[(inboxPath, .bytes audioBytes),
    ((paths_for_call (sha256Hex audioBytes)).call_record, .jsonData priorErrorRecord)], []⟩

/-! ## Claim theorems -/

/-- C1 (code bug, failing input): with a chat completion containing two
top-level JSON objects, the metadata stage raises
`ValueError("multiple JSON objects found")` from
`jsonio.parse_first_json_object`; `ValueError` is not in the except tuple at
`worker/ingest.py:157`, so the exception propagates out of `process_file`
and no `status=error` CallRecord is written — contradicting the claim that
every pipeline-stage failure is converted into a terminal error record. -/
theorem c1_malformed_output_escapes_process_file :
    (process_file envTwoObjects fsInbox inboxPath "/inbox" none).result
        = .error (.valueError "multiple JSON objects found")
    ∧ (process_file envTwoObjects fsInbox inboxPath "/inbox" none).writes = []
    ∧ caughtByStageHandler (.valueError "multiple JSON objects found") = false := by
  refine ⟨?_, ?_, ?_⟩ <;> rfl

/-- C6 (code bug): `parse_first_json_object` does reject a completion with
zero or with two top-level JSON objects and accepts a single object, but on
such a rejection during the metadata stage the raised `ValueError` escapes
`process_file`: no metadata artifact and, contrary to the claim, no terminal
error record is written. -/
theorem c6_schema_rejection_writes_no_record :
    parse_first_json_object "".data = .error "no JSON object found"
    ∧ parse_first_json_object "\x7b\"a\": 1\x7d \x7b\"b\": 2\x7d".data
        = .error "multiple JSON objects found"
    ∧ parse_first_json_object "\x7b\"a\": 1\x7d".data = .ok (Json.jobj [("a", Json.jnum 1)])
    ∧ fsRead (process_file envTwoObjects fsInbox inboxPath "/inbox" none).fs
        (paths_for_call (sha256Hex audioBytes)).metadata = none
    ∧ fsRead (process_file envTwoObjects fsInbox inboxPath "/inbox" none).fs
        (paths_for_call (sha256Hex audioBytes)).call_record = none
    ∧ (process_file envTwoObjects fsInbox inboxPath "/inbox" none).result
        = .error (.valueError "multiple JSON objects found") := by
  refine ⟨?_, ?_, ?_, ?_, ?_, ?_⟩ <;> rfl

/-- C2 (counterexample): a persisted CallRecord with `status = error` for
the same content is returned unchanged by `process_file` — zero record
writes (not overwritten) and zero backend calls (not reprocessed) — even in
an environment where reprocessing would succeed, refuting the claim that an
existing error record is overwritten. -/
theorem c2_error_record_not_overwritten :
    (process_file envStub fsWithErrorRecord inboxPath "/inbox" none).result
        = .ok priorErrorRecord
    ∧ (process_file envStub fsWithErrorRecord inboxPath "/inbox" none).writes = []
    ∧ (process_file envStub fsWithErrorRecord inboxPath "/inbox" none).calls = []
    ∧ jGet priorErrorRecord "status" = some (.jstr "error") := by
  refine ⟨?_, ?_, ?_, ?_⟩ <;> rfl

/-- C4 (counterexample): with `STABLE_POLLS` coerced to its minimum 1, a
single observation is a full all-equal window, so a file whose size strictly
increases on every poll (1, 2, 3) is nevertheless submitted — refuting the
claim that a strictly growing file is never submitted. -/
theorem c4_growing_file_submitted_at_threshold_one :
    (runPolls 1 watchStart [(1, "complete"), (2, "complete"), (3, "complete")]).2 = 1 := by
  decide

/-! ### C5: content addressing -/

theorem foldl_hashUpdate (cs : List (List Nat)) (acc : List Nat) :
    cs.foldl hashUpdate acc = acc ++ cs.flatten := by
  induction cs generalizing acc with
  | nil => simp
  | cons c cs ih => simp [hashUpdate, ih]

theorem chunksOfF_join (m : Nat) : ∀ (f : Nat) (l : List Nat), l.length ≤ f →
    (chunksOfF m f l).flatten = l := by
  intro f
  induction f with
  | zero =>
    intro l hl
    cases l with
    | nil => simp [chunksOfF]
    | cons x xs => simp at hl
  | succ f ih =>
    intro l hl
    cases l with
    | nil => simp [chunksOfF]
    | cons x xs =>
      rw [chunksOfF, List.flatten_cons, ih ((x :: xs).drop (m + 1))
        (by simp only [List.length_drop, List.length_cons]; simp at hl; omega),
        List.take_append_drop]

theorem chunksOf_join (m : Nat) (l : List Nat) : (chunksOf m l).flatten = l :=
  chunksOfF_join m l.length l le_rfl

/-- Lemma: `call_id_from_audio` on an existing file is the SHA-256 hex digest of
its full byte content (the 1 MiB chunking collapses by `chunksOf_join`). -/
theorem call_id_eq_hash (fs : FS) (path : String) (fd : FileData)
    (h : fsRead fs path = some fd) :
    call_id_from_audio fs path = .ok (sha256Hex (dataBytes fd)) := by
  unfold call_id_from_audio
  rw [h]
  exact congrArg Except.ok (by rw [foldl_hashUpdate, List.nil_append, chunksOf_join]; rfl)

/-- C5 (confirmed): `call_id_from_audio` returns exactly the SHA-256
lowercase hex digest of the file's full byte content; two files with the
same bytes yield the same CallID whatever their paths; streaming the bytes
through the hash context in chunks of any positive size (`m + 1`) yields the
digest of the whole content, so the result is independent of the 1 MiB read
chunk size; and the two single-byte contents `[0]` and `[1]` have distinct
CallIDs (the general single-byte-change clause is SHA-256 collision
resistance, checked here on this instance). -/
theorem c5_call_id_is_streamed_sha256 :
    (∀ (fs : FS) (path : String) (fd : FileData), fsRead fs path = some fd →
        call_id_from_audio fs path = .ok (sha256Hex (dataBytes fd)))
    ∧ (∀ (fs : FS) (p1 p2 : String) (d1 d2 : FileData),
        fsRead fs p1 = some d1 → fsRead fs p2 = some d2 →
        dataBytes d1 = dataBytes d2 →
        call_id_from_audio fs p1 = call_id_from_audio fs p2)
    ∧ (∀ (m : Nat) (bs : List Nat),
        hashHexDigest ((chunksOf m bs).foldl hashUpdate []) = sha256Hex bs)
    ∧ sha256Hex [0] ≠ sha256Hex [1] := by
  have key : ∀ (m : Nat) (bs : List Nat),
      hashHexDigest ((chunksOf m bs).foldl hashUpdate []) = sha256Hex bs := by
    intro m bs
    rw [foldl_hashUpdate, List.nil_append, chunksOf_join]
    rfl
  refine ⟨call_id_eq_hash, ?_, key, by decide⟩
  intro fs p1 p2 d1 d2 h1d h2d hbytes
  rw [call_id_eq_hash fs p1 d1 h1d, call_id_eq_hash fs p2 d2 h2d, hbytes]

/-- C5 witness: the theorem applied to the concrete inbox file. -/
theorem c5_witness :
    call_id_from_audio fsInbox inboxPath = .ok (sha256Hex audioBytes) :=
  c5_call_id_is_streamed_sha256.1 fsInbox inboxPath (.bytes audioBytes) rfl

/-! ### Filesystem helper lemmas -/

theorem mkdirp_files (fs : FS) (d : String) : (mkdirp fs d).files = fs.files := by
  unfold mkdirp; split <;> rfl

theorem ensure_files (fs : FS) : (ensure_runtime_layout fs).files = fs.files :=
  mkdirp_files fs CALLS_DIR

theorem fsRead_congr_files {fs1 fs2 : FS} (h : fs1.files = fs2.files) (p : String) :
    fsRead fs1 p = fsRead fs2 p := by
  unfold fsRead; rw [h]

theorem fsRead_ensure (fs : FS) (p : String) :
    fsRead (ensure_runtime_layout fs) p = fsRead fs p :=
  fsRead_congr_files (ensure_files fs) p

theorem fsExists_ensure (fs : FS) (p : String) :
    fsExists (ensure_runtime_layout fs) p = fsExists fs p := by
  unfold fsExists; rw [fsRead_ensure]

theorem call_id_ensure (fs : FS) (p : String) :
    call_id_from_audio (ensure_runtime_layout fs) p = call_id_from_audio fs p := by
  unfold call_id_from_audio; rw [fsRead_ensure]

theorem fsRead_fsWrite_self (fs : FS) (p : String) (d : FileData) :
    fsRead (fsWrite fs p d) p = some d := by
  simp [fsRead, fsWrite, List.find?]

/-! ### The idempotence short-circuit -/

/-- When the source file exists and a parseable record is already stored for
its CallID, `process_file` returns that record unchanged: no copies, no
backend calls, no writes (`worker/ingest.py:97-101`). -/
theorem process_file_shortCircuit (env : Env) (fs : FS) (path cd : String)
    (mode : Option String) (cid : String) (fd : FileData) (j : Json)
    (hex : fsExists fs path = true)
    (hcid : call_id_from_audio fs path = .ok cid)
    (hrec : fsRead fs (paths_for_call cid).call_record = some fd)
    (hloads : dataLoads fd = some j) :
    process_file env fs path cd mode = ⟨ensure_runtime_layout fs, [], [], .ok j⟩ := by
  unfold process_file
  simp only [fsExists_ensure, call_id_ensure, fsRead_ensure, hex, hcid, hrec, hloads,
    not_true_eq_false, if_false]

/-- C2 (amended, proved): when `process_file` runs on content whose CallID
already has a persisted CallRecord that parses as JSON, the record is
returned unchanged regardless of its status — `error` records included —
with no backend invocation and no write; retry after an error happens only
through the watcher, for content whose size (hence CallID) changed. -/
theorem c2_existing_record_returned_unchanged (env : Env) (fs : FS) (path cd : String)
    (mode : Option String) (cid : String) (fd : FileData) (j : Json)
    (hex : fsExists fs path = true)
    (hcid : call_id_from_audio fs path = .ok cid)
    (hrec : fsRead fs (paths_for_call cid).call_record = some fd)
    (hloads : dataLoads fd = some j) :
    (process_file env fs path cd mode).result = .ok j
    ∧ (process_file env fs path cd mode).writes = []
    ∧ (process_file env fs path cd mode).calls = []
    ∧ (process_file env fs path cd mode).fs.files = fs.files := by
  rw [process_file_shortCircuit env fs path cd mode cid fd j hex hcid hrec hloads]
  exact ⟨rfl, rfl, rfl, ensure_files fs⟩

/-- C2 witness: the amended theorem applied to the stored error record. -/
theorem c2_witness :
    (process_file envStub fsWithErrorRecord inboxPath "/inbox" none).result
      = .ok priorErrorRecord := by
  exact (c2_existing_record_returned_unchanged envStub fsWithErrorRecord inboxPath "/inbox"
    none (sha256Hex audioBytes) (.jsonData priorErrorRecord) priorErrorRecord
    rfl rfl rfl rfl).1

/-! ### Structure of the records `process_file` persists -/

theorem template_jGet_id (env : Env) (cid cd name dest tp mp rp status : String)
    (err : Option String) :
    jGet (call_record_template env cid cd name dest tp mp rp status err) "id"
      = some (.jstr cid) := by
  unfold call_record_template jGet jLookup
  cases err with
  | none => simp
  | some e => by_cases he : e = "" <;> simp [he]

theorem template_jGet_error (env : Env) (cid cd name dest tp mp rp status : String)
    (err : Option String) :
    jGet (call_record_template env cid cd name dest tp mp rp status err) "error"
      = match err with
        | some e => if e = "" then none else some (.jstr e)
        | none => none := by
  unfold call_record_template jGet jLookup
  cases err with
  | none => simp
  | some e => by_cases he : e = "" <;> simp [he]

/-- A successful `write_call_record` leaves the record readable, complete,
at the record path of the record's own id, and certifies validation. -/
theorem write_call_record_reads (env : Env) (fs : FS) (r : Json) (fs2 : FS) (cid : String)
    (hid : jGet r "id" = some (.jstr cid))
    (h : write_call_record env fs r = .ok fs2) :
    fsRead fs2 (paths_for_call cid).call_record = some (.jsonData r)
    ∧ validateCallRecordB r = true := by
  unfold write_call_record at h
  by_cases hv : validateCallRecordB r = true
  · simp only [hv, not_true_eq_false, if_false, hid] at h
    unfold atomic_write_json_net at h
    split at h
    · cases h
    · injection h with h2
      rw [← h2]
      exact ⟨fsRead_fsWrite_self _ _ _, hv⟩
  · rw [if_pos hv] at h
    cases h

theorem finishRecord_ok (env : Env) (fs : FS) (calls : List BCall)
    (cid cd name dest status : String) (err : Option String) (r : Json)
    (h : (finishRecord env fs calls cid cd name dest (paths_for_call cid) status err).result
      = .ok r) :
    (finishRecord env fs calls cid cd name dest (paths_for_call cid) status err).writes
        = [((paths_for_call cid).call_record, r)]
    ∧ fsRead (finishRecord env fs calls cid cd name dest (paths_for_call cid) status err).fs
        (paths_for_call cid).call_record = some (.jsonData r)
    ∧ validateCallRecordB r = true := by
  unfold finishRecord at h ⊢
  cases hw : write_call_record env fs (call_record_template env cid cd name dest
      (paths_for_call cid).transcript (paths_for_call cid).metadata
      (paths_for_call cid).rollup status err) with
  | error e => simp only [hw] at h; cases h
  | ok fs2 =>
    simp only [hw] at h ⊢
    injection h with h2
    subst h2
    have hr := write_call_record_reads env fs _ fs2 cid
      (template_jGet_id env cid cd name dest (paths_for_call cid).transcript
        (paths_for_call cid).metadata (paths_for_call cid).rollup status err) hw
    exact ⟨rfl, hr.1, hr.2⟩

theorem stagePhase_ok (env : Env) (fs2 : FS) (cid cd name dest : String) (r : Json)
    (h : (stagePhase env fs2 cid cd name dest (paths_for_call cid)).result = .ok r) :
    (stagePhase env fs2 cid cd name dest (paths_for_call cid)).writes
        = [((paths_for_call cid).call_record, r)]
    ∧ fsRead (stagePhase env fs2 cid cd name dest (paths_for_call cid)).fs
        (paths_for_call cid).call_record = some (.jsonData r)
    ∧ validateCallRecordB r = true := by
  unfold stagePhase at h ⊢
  rcases hs : run_stages env fs2 dest (paths_for_call cid) with ⟨fs3, calls, res⟩
  cases res with
  | ok u =>
    simp only [hs] at h ⊢
    exact finishRecord_ok env fs3 calls cid cd name dest "complete" none r h
  | error e =>
    simp only [hs] at h ⊢
    by_cases hc : caughtByStageHandler e = true
    · rw [if_pos hc] at h ⊢
      exact finishRecord_ok env fs3 calls cid cd name dest "error" _ r h
    · rw [if_neg hc] at h
      cases h

theorem process_file_body_ok (env : Env) (fs : FS) (path cd : String) (mode : Option String)
    (cid : String) (r : Json)
    (h : (process_file_body env fs path cd mode cid (paths_for_call cid)).result = .ok r) :
    (process_file_body env fs path cd mode cid (paths_for_call cid)).writes
        = [((paths_for_call cid).call_record, r)]
    ∧ fsRead (process_file_body env fs path cd mode cid (paths_for_call cid)).fs
        (paths_for_call cid).call_record = some (.jsonData r)
    ∧ validateCallRecordB r = true := by
  unfold process_file_body at h ⊢
  cases hc : env.copyExc with
  | some e =>
    simp only [hc] at h ⊢
    exact finishRecord_ok env _ [] cid cd _ _ "error" _ r h
  | none =>
    simp only [hc] at h ⊢
    cases hf : fsRead (mkdirp fs (paths_for_call cid).audio) path with
    | none =>
      simp only [hf] at h ⊢
      exact finishRecord_ok env _ [] cid cd _ _ "error" _ r h
    | some d =>
      simp only [hf] at h ⊢
      exact stagePhase_ok env _ cid cd _ _ r h

/-- When the source file exists and no parseable record is stored yet, a
terminal (`.ok`) `process_file` run persists exactly one record, readable
and schema-valid at the CallID's record path. -/
theorem process_file_ok (env : Env) (fs : FS) (path cd : String) (mode : Option String)
    (cid : String) (r : Json)
    (hex : fsExists fs path = true)
    (hcid : call_id_from_audio fs path = .ok cid)
    (hsc : ∀ fd, fsRead fs (paths_for_call cid).call_record = some fd → dataLoads fd = none)
    (h : (process_file env fs path cd mode).result = .ok r) :
    (process_file env fs path cd mode).writes = [((paths_for_call cid).call_record, r)]
    ∧ fsRead (process_file env fs path cd mode).fs (paths_for_call cid).call_record
        = some (.jsonData r)
    ∧ validateCallRecordB r = true := by
  unfold process_file at h ⊢
  simp only [fsExists_ensure, call_id_ensure, fsRead_ensure, hex, hcid, not_true_eq_false,
    if_false] at h ⊢
  cases hrec : fsRead fs (paths_for_call cid).call_record with
  | some fd =>
    simp only [hrec, hsc fd hrec] at h ⊢
    exact process_file_body_ok env (ensure_runtime_layout fs) path cd mode cid r h
  | none =>
    simp only [hrec] at h ⊢
    exact process_file_body_ok env (ensure_runtime_layout fs) path cd mode cid r h

/-! ### C10: corrupt record, C3: idempotence -/

/-- C10 (confirmed): when the stored file at the CallID's record path does
not parse as JSON, the idempotence short-circuit is skipped
(`except json.JSONDecodeError: pass`) and any terminal run of
`process_file` persists a fresh, schema-valid record over the corrupt one
at that same path. -/
theorem c10_corrupt_record_reprocessed (env : Env) (fs : FS) (path cd : String)
    (mode : Option String) (cid : String) (fd : FileData) (r : Json)
    (hex : fsExists fs path = true)
    (hcid : call_id_from_audio fs path = .ok cid)
    (hrec : fsRead fs (paths_for_call cid).call_record = some fd)
    (hcorrupt : dataLoads fd = none)
    (hres : (process_file env fs path cd mode).result = .ok r) :
    (process_file env fs path cd mode).writes = [((paths_for_call cid).call_record, r)]
    ∧ fsRead (process_file env fs path cd mode).fs (paths_for_call cid).call_record
        = some (.jsonData r)
    ∧ validateCallRecordB r = true :=
  process_file_ok env fs path cd mode cid r hex hcid
    (fun fd2 hfd2 => by
      rw [hrec] at hfd2
      injection hfd2 with hh
      rw [← hh]
      exact hcorrupt) hres

/-- The watched directory with a record file whose content fails
`json.loads`. -/
def fsCorruptRecord : FS :=
  ⟨[(inboxPath, .bytes audioBytes),
    ((paths_for_call (sha256Hex audioBytes)).call_record, .textData "not json")], []⟩

/-- The complete record the stub environment produces for the inbox file. -/
def completeRecordStub : Json :=
  call_record_template envStub (sha256Hex audioBytes) "/inbox" (baseName inboxPath)
    ((paths_for_call (sha256Hex audioBytes)).audio ++ "/" ++ baseName inboxPath)
    (paths_for_call (sha256Hex audioBytes)).transcript
    (paths_for_call (sha256Hex audioBytes)).metadata
    (paths_for_call (sha256Hex audioBytes)).rollup "complete" none

/-- C10 witness: the corrupt record is overwritten by the complete one. -/
theorem c10_witness :
    fsRead (process_file envStub fsCorruptRecord inboxPath "/inbox" none).fs
      (paths_for_call (sha256Hex audioBytes)).call_record
      = some (.jsonData completeRecordStub) :=
  (c10_corrupt_record_reprocessed envStub fsCorruptRecord inboxPath "/inbox" none
    (sha256Hex audioBytes) (.textData "not json") completeRecordStub
    rfl (call_id_eq_hash _ _ (.bytes audioBytes) rfl) rfl rfl (by rfl)).2.1

/-- C3 (confirmed): starting from a state with no record for the content,
a first `process_file` call that returns a record persists exactly one
CallRecord; a second call on a file with the same bytes — any path, any
environment, any copy mode — returns that record unchanged, invokes no
transcription or chat backend, writes no record, and leaves every file
untouched. -/
theorem c3_second_call_returns_record_without_backends (env1 env2 : Env) (fs : FS)
    (p1 p2 cd1 cd2 : String) (m1 m2 : Option String) (cid : String)
    (d1 d2 : FileData) (r : Json)
    (h1 : fsRead fs p1 = some d1)
    (hcid : call_id_from_audio fs p1 = .ok cid)
    (hnorec : fsRead fs (paths_for_call cid).call_record = none)
    (hres : (process_file env1 fs p1 cd1 m1).result = .ok r)
    (h2 : fsRead (process_file env1 fs p1 cd1 m1).fs p2 = some d2)
    (hbytes : dataBytes d2 = dataBytes d1) :
    (process_file env1 fs p1 cd1 m1).writes = [((paths_for_call cid).call_record, r)]
    ∧ (process_file env2 (process_file env1 fs p1 cd1 m1).fs p2 cd2 m2).result = .ok r
    ∧ (process_file env2 (process_file env1 fs p1 cd1 m1).fs p2 cd2 m2).calls = []
    ∧ (process_file env2 (process_file env1 fs p1 cd1 m1).fs p2 cd2 m2).writes = []
    ∧ (process_file env2 (process_file env1 fs p1 cd1 m1).fs p2 cd2 m2).fs.files
        = (process_file env1 fs p1 cd1 m1).fs.files := by
  have hex1 : fsExists fs p1 = true := by unfold fsExists; rw [h1]; rfl
  obtain ⟨hw, hread, hval⟩ := process_file_ok env1 fs p1 cd1 m1 cid r hex1 hcid
    (fun fd hfd => by rw [hnorec] at hfd; cases hfd) hres
  have hcEq : (Except.ok cid : Except PyExc String) = .ok (sha256Hex (dataBytes d1)) := by
    rw [← hcid, call_id_eq_hash fs p1 d1 h1]
  have hcid2 : call_id_from_audio (process_file env1 fs p1 cd1 m1).fs p2 = .ok cid := by
    rw [call_id_eq_hash _ p2 d2 h2, hbytes, ← hcEq]
  have hex2 : fsExists (process_file env1 fs p1 cd1 m1).fs p2 = true := by
    unfold fsExists; rw [h2]; rfl
  rw [process_file_shortCircuit env2 (process_file env1 fs p1 cd1 m1).fs p2 cd2 m2 cid
    (.jsonData r) r hex2 hcid2 hread rfl]
  exact ⟨hw, rfl, rfl, rfl, ensure_files _⟩

/-- C3 witness: the inbox file processed twice under the stub environment;
the second call returns the complete record. -/
theorem c3_witness :
    (process_file envStub (process_file envStub fsInbox inboxPath "/inbox" none).fs
      inboxPath "/inbox" none).result = .ok completeRecordStub
    ∧ (process_file envStub (process_file envStub fsInbox inboxPath "/inbox" none).fs
      inboxPath "/inbox" none).calls = [] := by
  have h := c3_second_call_returns_record_without_backends envStub envStub fsInbox
    inboxPath inboxPath "/inbox" "/inbox" none none (sha256Hex audioBytes)
    (.bytes audioBytes) (.bytes audioBytes) completeRecordStub
    rfl (call_id_eq_hash _ _ (.bytes audioBytes) rfl) rfl (by rfl) (by rfl) rfl
  exact ⟨h.2.1, h.2.2.1⟩

/-! ### C8: every persisted error message is truncated to 240 characters -/

theorem pySlice_length_le (n : Nat) (s : String) : (pySlice n s).length ≤ n :=
  List.length_take_le n s.data

/-- If a template's `error` field reads back as a string, that string is the
message the template was given. -/
theorem template_error_inv (env : Env) (cid cd name dest tp mp rp status : String)
    (err : Option String) (e : String)
    (he : jGet (call_record_template env cid cd name dest tp mp rp status err) "error"
      = some (.jstr e)) : err = some e := by
  rw [template_jGet_error] at he
  cases err with
  | none => cases he
  | some e2 =>
    by_cases h2 : e2 = ""
    · simp [h2] at he
    · simp [h2] at he
      rw [he]

theorem finishRecord_writes_shape (env : Env) (fs : FS) (calls : List BCall)
    (cid cd name dest : String) (P : CallPaths) (status : String) (err : Option String)
    (p : String) (j : Json)
    (hmem : (p, j) ∈ (finishRecord env fs calls cid cd name dest P status err).writes) :
    j = call_record_template env cid cd name dest P.transcript P.metadata P.rollup
      status err := by
  unfold finishRecord at hmem
  cases hw : write_call_record env fs (call_record_template env cid cd name dest
      P.transcript P.metadata P.rollup status err) with
  | error e2 => simp only [hw] at hmem; cases hmem
  | ok fs2 =>
    simp only [hw, List.mem_singleton, Prod.mk.injEq] at hmem
    exact hmem.2

theorem stagePhase_writes_shape (env : Env) (fs2 : FS) (cid cd name dest : String)
    (P : CallPaths) (p : String) (j : Json)
    (hmem : (p, j) ∈ (stagePhase env fs2 cid cd name dest P).writes) :
    ∃ status err,
      j = call_record_template env cid cd name dest P.transcript P.metadata P.rollup
        status err
      ∧ (err = none ∨ ∃ m, err = some (pySlice 240 m)) := by
  unfold stagePhase at hmem
  rcases hs : run_stages env fs2 dest P with ⟨fs3, calls, res⟩
  cases res with
  | ok u =>
    simp only [hs] at hmem
    exact ⟨"complete", none, finishRecord_writes_shape env fs3 calls cid cd name dest
      P "complete" none p j hmem, Or.inl rfl⟩
  | error e =>
    simp only [hs] at hmem
    by_cases hc : caughtByStageHandler e = true
    · rw [if_pos hc] at hmem
      exact ⟨"error", some (pySlice 240 (excMsg e)), finishRecord_writes_shape env fs3
        calls cid cd name dest P "error" _ p j hmem, Or.inr ⟨excMsg e, rfl⟩⟩
    · rw [if_neg hc] at hmem
      cases hmem

theorem process_file_body_writes_shape (env : Env) (fs : FS) (path cd : String)
    (mode : Option String) (cid : String) (P : CallPaths) (p : String) (j : Json)
    (hmem : (p, j) ∈ (process_file_body env fs path cd mode cid P).writes) :
    ∃ status err,
      j = call_record_template env cid cd (baseName path)
        (P.audio ++ "/" ++ baseName path) P.transcript P.metadata P.rollup status err
      ∧ (err = none ∨ ∃ m, err = some (pySlice 240 m)) := by
  unfold process_file_body at hmem
  cases hc : env.copyExc with
  | some e =>
    simp only [hc] at hmem
    exact ⟨"error", some (pySlice 240 (excMsg e)), finishRecord_writes_shape env _ []
      cid cd _ _ _ "error" _ p j hmem, Or.inr ⟨excMsg e, rfl⟩⟩
  | none =>
    simp only [hc] at hmem
    cases hf : fsRead (mkdirp fs P.audio) path with
    | none =>
      simp only [hf] at hmem
      exact ⟨"error", some (pySlice 240 ("copy failed: file not found: " ++ path)),
        finishRecord_writes_shape env _ [] cid cd _ _ _ "error" _ p j hmem,
        Or.inr ⟨"copy failed: file not found: " ++ path, rfl⟩⟩
    | some d =>
      simp only [hf] at hmem
      exact stagePhase_writes_shape env _ cid cd _ _ _ p j hmem

theorem process_file_writes_shape (env : Env) (fs : FS) (path cd : String)
    (mode : Option String) (p : String) (j : Json)
    (hmem : (p, j) ∈ (process_file env fs path cd mode).writes) :
    ∃ cid status err,
      j = call_record_template env cid cd (baseName path)
        ((paths_for_call cid).audio ++ "/" ++ baseName path)
        (paths_for_call cid).transcript (paths_for_call cid).metadata
        (paths_for_call cid).rollup status err
      ∧ (err = none ∨ ∃ m, err = some (pySlice 240 m)) := by
  unfold process_file at hmem
  by_cases hex : fsExists (ensure_runtime_layout fs) path = true
  · rw [if_neg (by simp [hex])] at hmem
    cases hci : call_id_from_audio (ensure_runtime_layout fs) path with
    | error e => simp only [hci] at hmem; cases hmem
    | ok cid =>
      simp only [hci] at hmem
      have hbody : ∀ hm : (p, j) ∈ (process_file_body env (ensure_runtime_layout fs) path
          cd mode cid (paths_for_call cid)).writes, _ :=
        fun hm => process_file_body_writes_shape env (ensure_runtime_layout fs) path cd
          mode cid (paths_for_call cid) p j hm
      cases hrec : fsRead (ensure_runtime_layout fs) (paths_for_call cid).call_record with
      | none =>
        simp only [hrec] at hmem
        exact ⟨cid, hbody hmem⟩
      | some fd =>
        cases hl : dataLoads fd with
        | none =>
          simp only [hrec, hl] at hmem
          exact ⟨cid, hbody hmem⟩
        | some j2 =>
          simp only [hrec, hl] at hmem
          cases hmem
  · rw [if_pos hex] at hmem
    cases hmem

/-- C8 (confirmed): every CallRecord that `process_file` persists carries an
`error` field only as `str(err)[:240]`, so any error string read back from a
persisted record has length at most 240. -/
theorem c8_error_message_truncated (env : Env) (fs : FS) (path cd : String)
    (mode : Option String) (p : String) (j : Json) (e : String)
    (hmem : (p, j) ∈ (process_file env fs path cd mode).writes)
    (he : jGet j "error" = some (.jstr e)) :
    e.length ≤ 240 := by
  obtain ⟨cid, status, err, hj, herr⟩ :=
    process_file_writes_shape env fs path cd mode p j hmem
  subst hj
  have hinv := template_error_inv env cid cd (baseName path)
    ((paths_for_call cid).audio ++ "/" ++ baseName path)
    (paths_for_call cid).transcript (paths_for_call cid).metadata
    (paths_for_call cid).rollup status err e he
  rcases herr with rfl | ⟨m, rfl⟩
  · cases hinv
  · injection hinv with h2
    rw [← h2]
    exact pySlice_length_le 240 m

/-- A long copy failure message for the C8 witness. -/
def longMsg : String := String.mk (List.replicate 500 'x')

/-- An environment whose copy step fails with an oversized `OSError`. -/
def envCopyFail : Env :=
  ⟨envStub.vars, "2026-01-01T00:00:00Z",
   fun _ => .ok (Json.jobj [("text", .jstr "hi"), ("language", .jstr "en")]),
   fun _ => .error (.transcribeError "unused"),
   fun _ _ => .error (.skillError "unused"),
   some (.osError longMsg), fun _ => none, fun _ => none⟩

/-- The error record that copy failure persists for the inbox file. -/
def copyFailRecord : Json :=
  call_record_template envCopyFail (sha256Hex audioBytes) "/inbox" (baseName inboxPath)
    ((paths_for_call (sha256Hex audioBytes)).audio ++ "/" ++ baseName inboxPath)
    (paths_for_call (sha256Hex audioBytes)).transcript
    (paths_for_call (sha256Hex audioBytes)).metadata
    (paths_for_call (sha256Hex audioBytes)).rollup "error" (some (pySlice 240 longMsg))

/-- C8 witness: the 500-character failure message is persisted truncated. -/
theorem c8_witness : (pySlice 240 longMsg).length ≤ 240 := by
  refine c8_error_message_truncated envCopyFail fsInbox inboxPath "/inbox" none
    ((paths_for_call (sha256Hex audioBytes)).call_record) copyFailRecord
    (pySlice 240 longMsg) ?_ (by rfl)
  show ((paths_for_call (sha256Hex audioBytes)).call_record, copyFailRecord)
    ∈ [((paths_for_call (sha256Hex audioBytes)).call_record, copyFailRecord)]
  exact List.mem_singleton_self _

/-! ### C7: atomic visibility of JSON writes -/

theorem find?_filter_keyne (files : List (String × FileData)) (p q : String) (h : q ≠ p) :
    (files.filter fun kv => kv.1 != p).find? (fun kv => kv.1 == q)
      = files.find? (fun kv => kv.1 == q) := by
  induction files with
  | nil => rfl
  | cons kv rest ih =>
    rcases kv with ⟨k, v⟩
    by_cases hk : k = p
    · subst hk
      have hq : (k == q) = false := beq_eq_false_iff_ne.mpr (fun hh => h (hh ▸ rfl))
      simp [List.filter_cons, List.find?, hq, ih]
    · by_cases hq : k = q
      · subst hq
        simp [List.filter_cons, List.find?, bne_iff_ne, hk]
      · have hq2 : (k == q) = false := beq_eq_false_iff_ne.mpr hq
        simp [List.filter_cons, List.find?, bne_iff_ne, hk, hq2, ih]

theorem fsRead_fsWrite_ne (fs : FS) (p : String) (d : FileData) (q : String)
    (h : q ≠ p) : fsRead (fsWrite fs p d) q = fsRead fs q := by
  unfold fsRead fsWrite
  have hq : (p == q) = false := beq_eq_false_iff_ne.mpr (fun hh => h (hh ▸ rfl))
  simp only [List.find?, hq]
  rw [find?_filter_keyne fs.files p q h]

theorem fsRead_mkdirp (fs : FS) (d : String) (p : String) :
    fsRead (mkdirp fs d) p = fsRead fs p :=
  fsRead_congr_files (mkdirp_files fs d) p

theorem mkdirp_dirs_contains (fs : FS) (d : String) :
    (mkdirp fs d).dirs.contains d = true := by
  unfold mkdirp
  split
  · assumption
  · simp

theorem tmpName_ne (p : String) : tmpName p ≠ p := by
  intro h
  have hlen := congrArg String.length h
  rw [tmpName, String.length_append] at hlen
  have h4 : (".tmp" : String).length = 4 := rfl
  omega

/-- Apply a sequence of primitive filesystem operations. -/
def applyOps (fs : FS) (ops : List FSOp) : FS := ops.foldl applyOp fs

/-- C7 (confirmed): `_atomic_write_json` (and the spec-modelled
`write_json_atomic` artifact writer, which follows the same discipline)
never exposes a partial document at the final path: every state observable
during the mkdir-parents / write-temp-sibling / atomic-rename sequence shows
the final path either with its previous content or with the complete
serialized payload; the finished sequence leaves the complete payload at the
final path; and whenever the temporary sibling exists, the parent directory
of the final path has already been created. -/
theorem c7_atomic_write_visibility (fs : FS) (path : String) (payload : Json)
    (htmp : fsRead fs (tmpName path) = none) :
    (∀ s ∈ execStates fs (atomic_write_json_ops path payload),
        fsRead s path = fsRead fs path
        ∨ fsRead s path = some (.textData (jsonRender payload)))
    ∧ fsRead (applyOps fs (atomic_write_json_ops path payload)) path
        = some (.textData (jsonRender payload))
    ∧ (∀ s ∈ execStates fs (atomic_write_json_ops path payload),
        fsExists s (tmpName path) = true → s.dirs.contains (parentDir path) = true) := by
  have hne := tmpName_ne path
  -- the five distinct shapes of observable states
  have hstates : ∀ s ∈ execStates fs (atomic_write_json_ops path payload),
      s = fs ∨ s = mkdirp fs (parentDir path)
      ∨ (∃ i, s = fsWrite (mkdirp fs (parentDir path)) (tmpName path)
            (.textData (String.mk ((jsonRenderV payload).take i))))
      ∨ s = applyOp (fsWrite (mkdirp fs (parentDir path)) (tmpName path)
            (.textData (String.mk (jsonRenderV payload))))
            (.renameOp (tmpName path) path) := by
    intro s hs
    simp only [atomic_write_json_ops, execStates, opStates, applyOp, List.mem_cons,
      List.mem_append, List.mem_map, List.mem_range, List.mem_singleton,
      List.not_mem_nil, or_false] at hs
    rcases hs with rfl | hs
    · exact Or.inl rfl
    rcases hs with rfl | hs
    · exact Or.inr (Or.inl rfl)
    rcases hs with rfl | hs
    · exact Or.inr (Or.inl rfl)
    rcases hs with ⟨i, _, rfl⟩ | hs
    · exact Or.inr (Or.inr (Or.inl ⟨i, rfl⟩))
    rcases hs with rfl | hs
    · exact Or.inr (Or.inr (Or.inl ⟨(jsonRenderV payload).length, by
        rw [List.take_of_length_le le_rfl]⟩))
    rcases hs with rfl | rfl
    · exact Or.inr (Or.inr (Or.inr rfl))
    · exact Or.inr (Or.inr (Or.inr rfl))
  have hrename : applyOp (fsWrite (mkdirp fs (parentDir path)) (tmpName path)
      (.textData (String.mk (jsonRenderV payload)))) (.renameOp (tmpName path) path)
      = fsWrite (fsRemove (fsWrite (mkdirp fs (parentDir path)) (tmpName path)
          (.textData (String.mk (jsonRenderV payload)))) (tmpName path)) path
          (.textData (String.mk (jsonRenderV payload))) := by
    show (match fsRead (fsWrite (mkdirp fs (parentDir path)) (tmpName path)
        (.textData (String.mk (jsonRenderV payload)))) (tmpName path) with
      | some d => fsWrite (fsRemove _ (tmpName path)) path d
      | none => _) = _
    rw [fsRead_fsWrite_self]
  refine ⟨?_, ?_, ?_⟩
  · intro s hs
    rcases hstates s hs with rfl | rfl | ⟨i, rfl⟩ | rfl
    · exact Or.inl rfl
    · exact Or.inl (fsRead_mkdirp fs _ path)
    · exact Or.inl (by
        rw [fsRead_fsWrite_ne _ _ _ _ (fun hh => hne hh.symm), fsRead_mkdirp])
    · refine Or.inr ?_
      rw [hrename]
      exact fsRead_fsWrite_self _ _ _
  · have h2 : applyOps fs (atomic_write_json_ops path payload)
        = applyOp (fsWrite (mkdirp fs (parentDir path)) (tmpName path)
            (.textData (String.mk (jsonRenderV payload)))) (.renameOp (tmpName path) path) := rfl
    rw [h2, hrename]
    exact fsRead_fsWrite_self _ _ _
  · intro s hs hex
    rcases hstates s hs with rfl | rfl | ⟨i, rfl⟩ | rfl
    · rw [fsExists, htmp] at hex
      cases hex
    · rw [fsExists, fsRead_mkdirp, htmp] at hex
      cases hex
    · exact mkdirp_dirs_contains fs (parentDir path)
    · rw [hrename]
      exact mkdirp_dirs_contains fs (parentDir path)

/-- C7 witness: the finished sequence leaves the complete document. -/
theorem c7_witness :
    fsRead (applyOps fsInbox (atomic_write_json_ops "/repo/runtime/calls/x/call_record.json"
      Json.jnull)) "/repo/runtime/calls/x/call_record.json"
      = some (.textData (jsonRender Json.jnull)) :=
  (c7_atomic_write_visibility fsInbox "/repo/runtime/calls/x/call_record.json"
    Json.jnull rfl).2.1

/-! ### Watcher lemmas (C4 and C9) -/

theorem dequeAppend_small (k : Nat) (h : List Nat) (x : Nat) (hlen : h.length + 1 ≤ k) :
    dequeAppend k h x = h ++ [x] := by
  show List.drop ((h ++ [x]).length - k) (h ++ [x]) = h ++ [x]
  rw [show (h ++ [x]).length - k = 0 from by simp; omega, List.drop_zero]

theorem dequeAppend_length (k sl : Nat) (h : List Nat) (x : Nat) (hk : 1 ≤ k)
    (hlen : h.length = min k sl) :
    (dequeAppend k h x).length = min k (sl + 1) := by
  unfold dequeAppend
  simp only [List.length_drop, List.length_append, List.length_singleton]
  omega

theorem dequeAppend_suffix (k x : Nat) (h seen : List Nat) (hs : h <:+ seen) :
    dequeAppend k h x <:+ seen ++ [x] := by
  obtain ⟨t, rfl⟩ := hs
  exact (List.drop_suffix _ _).trans ⟨t, (List.append_assoc t h [x]).symm⟩

theorem pySetCard1_replicate (k s : Nat) (hk : 1 ≤ k) :
    pySetCard1 (List.replicate k s) = true := by
  cases k with
  | zero => omega
  | succ k2 =>
    rw [List.replicate_succ]
    simp [pySetCard1, List.all_eq_true, List.mem_replicate]

theorem pySetCard1_pairwise_false (l : List Nat) (hp : List.Pairwise (· < ·) l)
    (hlen : 2 ≤ l.length) : pySetCard1 l = false := by
  match l, hp, hlen with
  | x :: y :: rest, hp, _ =>
    have hxy : x < y := (List.pairwise_cons.mp hp).1 y (List.mem_cons_self y rest)
    have hne : (y == x) = false := beq_eq_false_iff_ne.mpr (Nat.ne_of_gt hxy)
    simp [pySetCard1, hne]

theorem pySetCard1_mixed_false (i j s t : Nat) (hi : 1 ≤ i) (hj : 1 ≤ j) (hne : t ≠ s) :
    pySetCard1 (List.replicate i s ++ List.replicate j t) = false := by
  cases i with
  | zero => omega
  | succ i2 =>
    rw [List.replicate_succ, List.cons_append]
    show (List.replicate i2 s ++ List.replicate j t).all (fun y => y == s) = false
    rw [List.all_eq_false]
    refine ⟨t, List.mem_append_right _ ?_, by simp [hne]⟩
    rw [List.mem_replicate]
    exact ⟨by omega, rfl⟩

theorem watchStep_none (k : Nat) (h : List Nat) (e : Bool) (sz : Nat) (out : String) :
    watchStep k ⟨h, none, e⟩ sz out = watchObserve k ⟨h, none, e⟩ sz out := rfl

theorem watchStep_skip_same (k : Nat) (h : List Nat) (o : String) (sz : Nat) (e : Bool)
    (out : String) :
    watchStep k ⟨h, some (o, sz), e⟩ sz out = (⟨h, some (o, sz), e⟩, false) := by
  unfold watchStep
  simp

theorem watchStep_skip_complete (k : Nat) (h : List Nat) (ps : Nat) (e : Bool)
    (sz : Nat) (out : String) :
    watchStep k ⟨h, some ("complete", ps), e⟩ sz out
      = (⟨h, some ("complete", ps), e⟩, false) := by
  unfold watchStep
  simp

theorem watchStep_evict (k : Nat) (h : List Nat) (s0 : Nat) (e : Bool) (sz : Nat)
    (out : String) (hne : s0 ≠ sz) :
    watchStep k ⟨h, some ("error", s0), e⟩ sz out = watchObserve k ⟨h, none, e⟩ sz out := by
  unfold watchStep
  simp [hne]

theorem runPolls_skip_after (k : Nat) (h : List Nat) (o : String) (sz : Nat) (e : Bool)
    (out : String) : ∀ j : Nat,
    runPolls k ⟨h, some (o, sz), e⟩ (List.replicate j (sz, out))
      = (⟨h, some (o, sz), e⟩, 0) := by
  intro j
  induction j with
  | zero => rfl
  | succ j2 ih =>
    rw [List.replicate_succ]
    simp only [runPolls, watchStep_skip_same, ih]
    simp

theorem runPolls_append (k : Nat) (st : WatchSt) (a b : List (Nat × String)) :
    runPolls k st (a ++ b)
      = ((runPolls k (runPolls k st a).1 b).1,
         (runPolls k st a).2 + (runPolls k (runPolls k st a).1 b).2) := by
  induction a generalizing st with
  | nil => simp [runPolls]
  | cons ob rest ih =>
    simp only [List.cons_append, runPolls, List.append_eq]
    rw [ih]
    cases (watchStep k st ob.1 ob.2).2 <;> simp [Nat.add_assoc]

/-- One observation of size `s` while the window is still filling. -/
theorem watchStep_fill (k i s : Nat) (e : Bool) (out : String) (hik : i + 1 < k) :
    watchStep k ⟨List.replicate i s, none, e⟩ s out
      = (⟨List.replicate (i + 1) s, none, e⟩, false) := by
  rw [watchStep_none]
  unfold watchObserve
  have hda : dequeAppend k (List.replicate i s) s = List.replicate (i + 1) s := by
    rw [dequeAppend_small k _ s (by simp; omega), ← List.replicate_succ']
  rw [hda, if_pos (Or.inl (by simp; omega))]

/-- The observation that fills the window with identical sizes submits. -/
theorem watchStep_submit (k s : Nat) (e : Bool) (out : String) (hk : 1 ≤ k) :
    watchStep k ⟨List.replicate (k - 1) s, none, e⟩ s out
      = (⟨List.replicate k s, some (out, s), true⟩, true) := by
  rw [watchStep_none]
  unfold watchObserve
  have hda : dequeAppend k (List.replicate (k - 1) s) s = List.replicate k s := by
    rw [dequeAppend_small k _ s (by simp; omega), ← List.replicate_succ']
    congr 1
    omega
  rw [hda, if_neg (by simp [pySetCard1_replicate k s hk])]

theorem runPolls_fill (k s : Nat) (out : String) (e : Bool) :
    ∀ (j i : Nat), i + j < k →
      runPolls k ⟨List.replicate i s, none, e⟩ (List.replicate j (s, out))
        = (⟨List.replicate (i + j) s, none, e⟩, 0) := by
  intro j
  induction j with
  | zero => intro i _; rfl
  | succ j2 ih =>
    intro i hij
    rw [List.replicate_succ]
    simp only [runPolls, watchStep_fill k i s e out (by omega)]
    rw [ih (i + 1) (by omega)]
    simp only [show i + 1 + j2 = i + (j2 + 1) from by omega]
    simp

/-- Invariant run for strictly growing files: the window is always a suffix
of the sizes seen so far of the maximal length, so it is never an all-equal
full window when the threshold is at least 2. -/
theorem runPolls_growing_aux (k : Nat) (hk : 2 ≤ k) :
    ∀ (obs : List (Nat × String)) (seen h : List Nat) (e : Bool),
      h.length = min k seen.length → h <:+ seen →
      List.Pairwise (· < ·) (seen ++ obs.map Prod.fst) →
      (runPolls k ⟨h, none, e⟩ obs).2 = 0 := by
  intro obs
  induction obs with
  | nil => intro seen h e _ _ _; rfl
  | cons ob rest ih =>
    intro seen h e hlen hsuff hpair
    have hlen2 : (dequeAppend k h ob.1).length = min k (seen.length + 1) :=
      dequeAppend_length k seen.length h ob.1 (by omega) hlen
    have hstep : watchStep k ⟨h, none, e⟩ ob.1 ob.2
        = (⟨dequeAppend k h ob.1, none, e⟩, false) := by
      rw [watchStep_none]
      unfold watchObserve
      by_cases hlt : (dequeAppend k h ob.1).length < k
      · rw [if_pos (Or.inl hlt)]
      · have hfull : (dequeAppend k h ob.1).length = k := by omega
        have hsuff2 : dequeAppend k h ob.1 <:+ seen ++ [ob.1] :=
          dequeAppend_suffix k ob.1 h seen hsuff
        have hsub : (seen ++ [ob.1]).Sublist (seen ++ (ob :: rest).map Prod.fst) := by
          refine List.Sublist.append_left ?_ seen
          simp only [List.map_cons]
          exact (List.singleton_sublist.mpr (List.mem_cons_self _ _))
        have hpair2 : List.Pairwise (· < ·) (dequeAppend k h ob.1) :=
          ((hpair.sublist hsub).sublist hsuff2.sublist)
        have hcard : pySetCard1 (dequeAppend k h ob.1) = false :=
          pySetCard1_pairwise_false _ hpair2 (by omega)
        rw [if_pos (Or.inr (by simp [hcard]))]
    simp only [runPolls, hstep]
    rw [ih (seen ++ [ob.1]) (dequeAppend k h ob.1) e
      (by rw [hlen2]; simp)
      (dequeAppend_suffix k ob.1 h seen hsuff)
      (by rwa [List.append_assoc, List.singleton_append, ← List.map_cons])]
    simp

/-- C4 (amended): with `stabilityThreshold` at least 2, a file whose size
strictly increases on every poll is never submitted (at the coerced minimum
of 1 every observation is trivially stable — see the counterexample); a
file whose size is constant is submitted exactly once, at the poll that
fills the window, and no earlier. -/
theorem c4_stability_detection :
    (∀ (k : Nat) (obs : List (Nat × String)), 2 ≤ k →
        List.Pairwise (· < ·) (obs.map Prod.fst) →
        (runPolls k watchStart obs).2 = 0)
    ∧ (∀ (k m s : Nat) (out : String), 1 ≤ k → k ≤ m →
        (runPolls k watchStart (List.replicate m (s, out))).2 = 1)
    ∧ (∀ (k j s : Nat) (out : String), j < k →
        (runPolls k watchStart (List.replicate j (s, out))).2 = 0) := by
  refine ⟨?_, ?_, ?_⟩
  · intro k obs hk hp
    exact runPolls_growing_aux k hk obs [] [] false (by simp) List.nil_suffix hp
  · intro k m s out hk hm
    have hsplit : List.replicate m (s, out)
        = List.replicate (k - 1) (s, out) ++ ((s, out) :: List.replicate (m - k) (s, out)) := by
      rw [← List.replicate_succ, ← List.replicate_add]
      congr 1
      omega
    rw [hsplit, runPolls_append]
    have h1 : runPolls k watchStart (List.replicate (k - 1) (s, out))
        = (⟨List.replicate (k - 1) s, none, false⟩, 0) := by
      have := runPolls_fill k s out false (k - 1) 0 (by omega)
      simpa using this
    rw [h1]
    simp only [runPolls, watchStep_submit k s false out hk]
    rw [runPolls_skip_after k (List.replicate k s) out s true out (m - k)]
    simp
  · intro k j s out hj
    have := runPolls_fill k s out false j 0 (by omega)
    simp only [show (0 : Nat) + j = j from by omega] at this
    have h0 : (List.replicate 0 s : List Nat) = [] := rfl
    rw [show watchStart = (⟨List.replicate 0 s, none, false⟩ : WatchSt) from rfl, this]

/-- C4 witness: threshold 2, constant size run of length 3 — exactly one
submission. -/
theorem c4_witness :
    (runPolls 2 watchStart (List.replicate 3 (5, "complete"))).2 = 1 :=
  c4_stability_detection.2.1 2 3 5 "complete" (by omega) (by omega)

/-! ### C9: eviction and retry of errored files -/

/-- Appending the new size `t` to a full window holding `k - j` old sizes and
`j` new ones drops one old size from the left. -/
theorem dequeAppend_mixed (k j s0 t : Nat) (hj : j < k) :
    dequeAppend k (List.replicate (k - j) s0 ++ List.replicate j t) t
      = List.replicate (k - (j + 1)) s0 ++ List.replicate (j + 1) t := by
  show ((List.replicate (k - j) s0 ++ List.replicate j t) ++ [t]).drop
      (((List.replicate (k - j) s0 ++ List.replicate j t) ++ [t]).length - k) = _
  rw [show ((List.replicate (k - j) s0 ++ List.replicate j t) ++ [t]).length - k = 1
    from by simp; omega]
  rw [show k - j = (k - (j + 1)) + 1 from by omega, List.replicate_succ,
    List.cons_append, List.cons_append, List.drop_succ_cons, List.drop_zero,
    List.append_assoc, ← List.replicate_succ']

theorem watchStep_mixed_skip (k j s0 t : Nat) (e : Bool) (out : String) (hne : t ≠ s0)
    (hj : j + 1 < k) :
    watchStep k ⟨List.replicate (k - j) s0 ++ List.replicate j t, none, e⟩ t out
      = (⟨List.replicate (k - (j + 1)) s0 ++ List.replicate (j + 1) t, none, e⟩, false) := by
  rw [watchStep_none]
  unfold watchObserve
  rw [dequeAppend_mixed k j s0 t (by omega)]
  rw [if_pos (Or.inr (by
    simp [pySetCard1_mixed_false (k - (j + 1)) (j + 1) s0 t (by omega) (by omega) hne]))]

theorem watchStep_mixed_submit (k j s0 t : Nat) (e : Bool) (out : String)
    (hlast : j + 1 = k) :
    watchStep k ⟨List.replicate (k - j) s0 ++ List.replicate j t, none, e⟩ t out
      = (⟨List.replicate k t, some (out, t), true⟩, true) := by
  rw [watchStep_none]
  unfold watchObserve
  rw [dequeAppend_mixed k j s0 t (by omega)]
  rw [show k - (j + 1) = 0 from by omega, List.replicate_zero, List.nil_append, hlast]
  rw [if_neg (by simp [pySetCard1_replicate k t (by omega)])]

theorem runPolls_mixed (k s0 t : Nat) (out : String) (e : Bool) (hne : t ≠ s0) :
    ∀ (m j : Nat), 1 ≤ j → j < k → k - j ≤ m →
      (runPolls k ⟨List.replicate (k - j) s0 ++ List.replicate j t, none, e⟩
        (List.replicate m (t, out))).2 = 1 := by
  intro m
  induction m with
  | zero => intro j h1 hj hm; omega
  | succ m2 ih =>
    intro j h1 hj hm
    by_cases hlast : j + 1 = k
    · rw [List.replicate_succ]
      simp only [runPolls, watchStep_mixed_submit k j s0 t e out hlast]
      rw [runPolls_skip_after k (List.replicate k t) out t true out m2]
      simp
    · rw [List.replicate_succ]
      simp only [runPolls, watchStep_mixed_skip k j s0 t e out hne (by omega)]
      rw [ih (j + 1) (by omega) (by omega) (by omega)]
      simp

theorem runPolls_mixed_zero (k s0 t : Nat) (out : String) (e : Bool) (hne : t ≠ s0) :
    ∀ (j2 j : Nat), 1 ≤ j → j + j2 < k →
      (runPolls k ⟨List.replicate (k - j) s0 ++ List.replicate j t, none, e⟩
        (List.replicate j2 (t, out))).2 = 0 := by
  intro j2
  induction j2 with
  | zero => intro j _ _; rfl
  | succ j3 ih =>
    intro j h1 hjk
    rw [List.replicate_succ]
    simp only [runPolls, watchStep_mixed_skip k j s0 t e out hne (by omega)]
    rw [ih (j + 1) (by omega) (by omega)]
    simp

/-- The first poll after an error whose size changed: the stale entry is
evicted and the observation enters the (still unstable, for `k ≥ 2`) mixed
window. -/
theorem watchObserve_evict_first (k s0 t : Nat) (e : Bool) (out : String) (hk : 2 ≤ k)
    (hne : t ≠ s0) :
    watchObserve k ⟨List.replicate k s0, none, e⟩ t out
      = (⟨List.replicate (k - 1) s0 ++ List.replicate 1 t, none, e⟩, false) := by
  unfold watchObserve
  have hda : dequeAppend k (List.replicate k s0) t
      = List.replicate (k - 1) s0 ++ List.replicate 1 t := by
    have h0 : List.replicate k s0 = List.replicate (k - 0) s0 ++ List.replicate 0 t := by
      simp
    rw [h0, dequeAppend_mixed k 0 s0 t (by omega)]
  rw [hda, if_pos (Or.inr (by
    have hcard := pySetCard1_mixed_false (k - 1) 1 s0 t (by omega) (by omega) hne
    simp only [List.replicate_one] at hcard
    simp [hcard]))]

theorem runPolls_evicted (k s0 t : Nat) (out : String) (e : Bool) (hk : 1 ≤ k)
    (hne : t ≠ s0) : ∀ m, k ≤ m →
    (runPolls k ⟨List.replicate k s0, some ("error", s0), e⟩
      (List.replicate m (t, out))).2 = 1 := by
  intro m hm
  cases m with
  | zero => omega
  | succ m2 =>
    rw [List.replicate_succ]
    simp only [runPolls,
      watchStep_evict k (List.replicate k s0) s0 e t out (fun hh => hne hh.symm)]
    by_cases hk1 : k = 1
    · subst hk1
      have hobs : watchObserve 1 ⟨List.replicate 1 s0, none, e⟩ t out
          = (⟨[t], some (out, t), true⟩, true) := by
        unfold watchObserve
        have hda : dequeAppend 1 (List.replicate 1 s0) t = [t] := rfl
        rw [hda, if_neg (by simp [pySetCard1])]
      rw [hobs, runPolls_skip_after 1 [t] out t true out m2]
      simp
    · rw [watchObserve_evict_first k s0 t e out (by omega) hne]
      rw [runPolls_mixed k s0 t out e hne m2 1 (by omega) (by omega) (by omega)]
      simp

theorem runPolls_evicted_zero (k s0 t : Nat) (out : String) (e : Bool) (hne : t ≠ s0) :
    ∀ j, j < k →
    (runPolls k ⟨List.replicate k s0, some ("error", s0), e⟩
      (List.replicate j (t, out))).2 = 0 := by
  intro j hj
  cases j with
  | zero => rfl
  | succ j3 =>
    rw [List.replicate_succ]
    simp only [runPolls,
      watchStep_evict k (List.replicate k s0) s0 e t out (fun hh => hne hh.symm)]
    rw [watchObserve_evict_first k s0 t e out (by omega) hne]
    rw [runPolls_mixed_zero k s0 t out e hne j3 1 (by omega) (by omega)]
    simp

/-- C9 (confirmed): a processed entry with outcome `complete` is always
skipped; a processed entry whose current size equals the recorded size is
skipped whatever its status; an errored entry whose size changed is evicted
and, observing a new constant size, is resubmitted exactly once — at the
`stabilityThreshold`-th new observation and not before, i.e. with a full
fresh stability window. -/
theorem c9_error_retry_eviction :
    (∀ (k : Nat) (h : List Nat) (ps : Nat) (e : Bool) (sz : Nat) (out : String),
        watchStep k ⟨h, some ("complete", ps), e⟩ sz out
          = (⟨h, some ("complete", ps), e⟩, false))
    ∧ (∀ (k : Nat) (h : List Nat) (o : String) (sz : Nat) (e : Bool) (out : String),
        watchStep k ⟨h, some (o, sz), e⟩ sz out = (⟨h, some (o, sz), e⟩, false))
    ∧ (∀ (k s0 t m : Nat) (out : String) (e : Bool), 1 ≤ k → t ≠ s0 → k ≤ m →
        (runPolls k ⟨List.replicate k s0, some ("error", s0), e⟩
          (List.replicate m (t, out))).2 = 1)
    ∧ (∀ (k s0 t j : Nat) (out : String) (e : Bool), t ≠ s0 → j < k →
        (runPolls k ⟨List.replicate k s0, some ("error", s0), e⟩
          (List.replicate j (t, out))).2 = 0) := by
  refine ⟨watchStep_skip_complete, watchStep_skip_same, ?_, ?_⟩
  · intro k s0 t m out e hk hne hm
    exact runPolls_evicted k s0 t out e hk hne m hm
  · intro k s0 t j out e hne hj
    exact runPolls_evicted_zero k s0 t out e hne j hj

/-- C9 witness: threshold 2, errored at size 5, rewritten to size 7 —
resubmitted exactly once over two polls, and not on the first. -/
theorem c9_witness :
    (runPolls 2 ⟨List.replicate 2 5, some ("error", 5), true⟩
      (List.replicate 2 (7, "complete"))).2 = 1
    ∧ (runPolls 2 ⟨List.replicate 2 5, some ("error", 5), true⟩
      (List.replicate 1 (7, "complete"))).2 = 0 :=
  ⟨c9_error_retry_eviction.2.2.1 2 5 7 2 "complete" true (by omega) (by omega) (by omega),
   c9_error_retry_eviction.2.2.2 2 5 7 1 "complete" true (by omega) (by omega)⟩

end AlertFramework
